import Mathlib

/-!
# Task store of `main.go`

A shallow embedding of the in-memory task store (`Store`, `NewStore`, `Create`,
`GetAll`, `GetByID`, `Update`, `Delete`) and of the two HTTP handlers of `main`
(`/tasks` and `/tasks/{id}`).

The store is `map[int64]*Task`: it holds *pointers*.  A pointer is modelled as an
address into a heap of `Task` objects, so that two keys holding the same pointer, or a
caller keeping a pointer it got back, behave as in the program.  `int64` arithmetic is
modelled on `Int` with explicit wrap-around.
-/

namespace TaskStore

/-! ## Machine integers -/

/-- Two's-complement wrap-around of an integer into the `int64` range
`[-2^63, 2^63)`: the value of an `int64` expression after overflow. -/
def wrapInt64 (x : Int) : Int :=
  (x + 9223372036854775808) % 18446744073709551616 - 9223372036854775808

/-! ## Library functions used by the program -/

/-- The characters `unicode.IsSpace` accepts: the Latin-1 spaces
`\t \n \v \f \r`, space, U+0085, U+00A0, and the other code points with the Unicode
White_Space property. -/
def isSpace (c : Char) : Bool :=
  let n := c.toNat
  (0x09 ≤ n && n ≤ 0x0D) || n == 0x20 || n == 0x85 || n == 0xA0 || n == 0x1680 ||
  (0x2000 ≤ n && n ≤ 0x200A) || n == 0x2028 || n == 0x2029 || n == 0x202F ||
  n == 0x205F || n == 0x3000

/-- The function `strings.TrimSpace`: the string without its leading and trailing
white space. -/
def TrimSpace (s : String) : String :=
  String.mk ((s.data.dropWhile isSpace).reverse.dropWhile isSpace).reverse

/-- The function `strconv.ParseBool`: it accepts exactly
`1 t T TRUE true True` and `0 f F FALSE false False`; `none` is the error result. -/
def ParseBool (str : String) : Option Bool :=
  if str = "1" ∨ str = "t" ∨ str = "T" ∨ str = "TRUE" ∨ str = "true" ∨ str = "True" then
    some true
  else if str = "0" ∨ str = "f" ∨ str = "F" ∨ str = "FALSE" ∨ str = "false" ∨
      str = "False" then
    some false
  else
    none

/-! ## Data model -/

/-- The struct `Task`. -/
structure Task where
  ID : Int
  Title : String
  Description : String
  Completed : Bool
deriving DecidableEq, Inhabited, Repr

/-- The struct `UpdateTaskPayload`: each field is a pointer in the source,
`none` standing for a nil pointer (field not supplied). -/
structure UpdateTaskPayload where
  Title : Option String
  Description : Option String
  Completed : Option Bool
deriving DecidableEq, Inhabited, Repr

deriving instance DecidableEq for Except

/-- A non-nil `*Task`: the address of a `Task` object.  (A nil `*Task` is never stored:
`Create` dereferences its argument before inserting it.) -/
abbrev Ptr := Nat

/-- The `Task` objects of the program, by address. -/
abbrev Heap := Ptr → Task

/-- The type `map[int64]*Task`: a finite map with distinct keys. -/
abbrev TaskMap := AList (fun _ : Int => Ptr)

/-- The struct `Store` (the lock apart): the task map and the id counter. -/
structure Store where
  tasks : TaskMap
  next : Int

/-- The state a `Store` method acts on: the store and the task objects its
pointers refer to. -/
structure Mem where
  heap : Heap
  store : Store

/-- The order in which one `for ... range` loop visits the entries of a map: Go
leaves it unspecified, so it is any rearrangement of the entries. -/
structure RangeOrder where
  visit : List (Sigma fun _ : Int => Ptr) → List (Sigma fun _ : Int => Ptr)
  perm : ∀ l, (visit l).Perm l

/-- The iteration order that visits the entries as they are laid out. -/
def RangeOrder.asStored : RangeOrder := ⟨id, fun l => List.Perm.refl l⟩

/-- The iteration order that visits the entries back to front. -/
def RangeOrder.backwards : RangeOrder := ⟨List.reverse, fun l => List.reverse_perm l⟩

/-! ## The store -/

/-- The function `NewStore`: an empty map and the counter at 1. -/
def NewStore : Store := ⟨∅, 1⟩

/-- The state right after `NewStore()`, the task objects being `h`. -/
def initMem (h : Heap) : Mem := ⟨h, NewStore⟩

/-- The method `Store.Create`: `t.ID = s.next; s.next++; s.tasks[t.ID] = t; return t`.
The store keeps the caller's pointer `t` itself; `s.next++` is `int64` arithmetic. -/
def Create (m : Mem) (t : Ptr) : Mem × Ptr :=
  let heap1 : Heap := Function.update m.heap t { m.heap t with ID := m.store.next }
  let next1 := wrapInt64 (m.store.next + 1)
  (⟨heap1, ⟨m.store.tasks.insert (heap1 t).ID t, next1⟩⟩, t)

/-- The method `Store.GetAll`: the pointers of the map, appended to `out` in the
order the `range` loop visits them. -/
def GetAll (ρ : RangeOrder) (m : Mem) : List Ptr :=
  (ρ.visit m.store.tasks.entries).foldl (fun out e => out ++ [e.2]) []

/-- The method `Store.GetByID`: `t, ok := s.tasks[id]`; `none` is `(nil, false)`. -/
def GetByID (m : Mem) (id : Int) : Option Ptr :=
  m.store.tasks.lookup id

/-- The assignment `t.Title = v`. -/
def setTitle (h : Heap) (t : Ptr) (v : String) : Heap :=
  Function.update h t { h t with Title := v }

/-- The statement `if upd.Description != nil { t.Description = *upd.Description }`. -/
def setDescription (h : Heap) (t : Ptr) : Option String → Heap
  | none => h
  | some v => Function.update h t { h t with Description := v }

/-- The statement `if upd.Completed != nil { t.Completed = *upd.Completed }`. -/
def setCompleted (h : Heap) (t : Ptr) : Option Bool → Heap
  | none => h
  | some v => Function.update h t { h t with Completed := v }

/-- The method `Store.Update`.  The result is the returned pointer, or the message
of the returned error. -/
def Update (m : Mem) (id : Int) (upd : UpdateTaskPayload) : Mem × Except String Ptr :=
  match m.store.tasks.lookup id with
  | none => (m, .error "not found")
  | some t =>
    match upd.Title with
    | some title =>
      if TrimSpace title = "" then
        (m, .error "title cannot be empty")
      else
        (⟨setCompleted (setDescription (setTitle m.heap t title) t upd.Description) t
            upd.Completed, m.store⟩, .ok t)
    | none =>
      (⟨setCompleted (setDescription m.heap t upd.Description) t upd.Completed, m.store⟩,
        .ok t)

/-- The method `Store.Delete`. -/
def Delete (m : Mem) (id : Int) : Mem × Bool :=
  match m.store.tasks.lookup id with
  | none => (m, false)
  | some _ => (⟨m.heap, ⟨m.store.tasks.erase id, m.store.next⟩⟩, true)

/-! ## Sequences of store operations -/

/-- One call of a `Store` method, with its arguments. -/
inductive Op where
  | Create (t : Ptr)
  | GetAll (ρ : RangeOrder)
  | GetByID (id : Int)
  | Update (id : Int) (upd : UpdateTaskPayload)
  | Delete (id : Int)

/-- What a `Store` method returns. -/
inductive Ret where
  | created (t : Ptr)
  | all (out : List Ptr)
  | got (r : Option Ptr)
  | updated (r : Except String Ptr)
  | deleted (ok : Bool)

/-- The effect of one call: the state after it and the value returned. -/
def step (m : Mem) : Op → Mem × Ret
  | .Create t => ((Create m t).1, .created (Create m t).2)
  | .GetAll ρ => (m, .all (GetAll ρ m))
  | .GetByID id => (m, .got (GetByID m id))
  | .Update id upd => ((Update m id upd).1, .updated (Update m id upd).2)
  | .Delete id => ((Delete m id).1, .deleted (Delete m id).2)

/-- The state after a sequence of calls. -/
def run (m : Mem) : List Op → Mem
  | [] => m
  | op :: ops => run (step m op).1 ops

/-- The ids returned by the `Create` calls of a sequence, in call order: the `ID` of
the returned task, read when the call returns. -/
def createdIds (m : Mem) : List Op → List Int
  | [] => []
  | .Create t :: ops =>
    ((Create m t).1.heap (Create m t).2).ID :: createdIds (Create m t).1 ops
  | op :: ops => createdIds (step m op).1 ops

/-- The number of `Create` calls in a sequence. -/
def countCreates : List Op → Nat
  | [] => 0
  | .Create _ :: ops => countCreates ops + 1
  | _ :: ops => countCreates ops

/-! ## The handler of `GET /tasks` -/

/-- What a handler writes: nothing, a plain-text message (`http.Error`), or the JSON
encoding of one task or of a list of tasks, taken when the response is written. -/
inductive Body where
  | empty
  | text (msg : String)
  | task (t : Task)
  | tasks (ts : List Task)
deriving DecidableEq, Repr

/-- An HTTP response: status code and body. -/
structure Response where
  status : Nat
  body : Body
deriving DecidableEq, Repr

/-- The filter loop of the list handler: the tasks of `all` whose `Completed` equals
`completed`, in the order of `all`. -/
def filterCompleted (h : Heap) (all : List Ptr) (completed : Bool) : List Ptr :=
  all.foldl (fun filtered t => if (h t).Completed = completed then filtered ++ [t]
    else filtered) []

/-- The `GET` branch of the `/tasks` handler; `q` is `r.URL.Query().Get("completed")`,
which is the empty string when the parameter is absent. -/
def handleList (ρ : RangeOrder) (m : Mem) (q : String) : Response :=
  let all := GetAll ρ m
  if q = "" then
    ⟨200, .tasks (all.map m.heap)⟩
  else
    match ParseBool q with
    | none => ⟨400, .text "completed query param must be boolean"⟩
    | some completed => ⟨200, .tasks ((filterCompleted m.heap all completed).map m.heap)⟩

/-! ## The running server and its handlers -/

/-- The struct `CreateTaskPayload`. -/
structure CreateTaskPayload where
  Title : String
  Description : String
  Completed : Option Bool
deriving DecidableEq, Inhabited, Repr

/-- The call `r.URL.Query().Get("completed")`, `vs` being the values the query string
gives the parameter (none when it is absent, `[""]` for `?completed=`): the first
value, or the empty string when there is none. -/
def queryGet (vs : List String) : String :=
  match vs with
  | [] => ""
  | v :: _ => v

/-- The running program: the store with the task objects, and the allocator.  The
objects allocated so far are at the addresses below `brk`. -/
structure Server where
  mem : Mem
  brk : Ptr

/-- The program at start-up: `store := NewStore()` and no task allocated. -/
def newServer (h : Heap) : Server := ⟨initMem h, 0⟩

/-- The expression `&Task{...}`: a new object, at an address not in use. -/
def alloc (s : Server) (v : Task) : Server × Ptr :=
  (⟨⟨Function.update s.mem.heap s.brk v, s.mem.store⟩, s.brk + 1⟩, s.brk)

/-- The request methods the router passes to the two handlers. -/
inductive Method where
  | GET
  | POST
  | PUT
  | DELETE
  | OPTIONS
deriving DecidableEq, Repr

/-- The handler of `/tasks`.  `body` is the decoded JSON body (`none` when decoding
fails), `completed` the values of the query parameter of that name. -/
def handleTasks (ρ : RangeOrder) (s : Server) (method : Method)
    (body : Option CreateTaskPayload) (completed : List String) : Server × Response :=
  match method with
  | .POST =>
    match body with
    | none => (s, ⟨400, .text "invalid JSON body"⟩)
    | some p =>
      if TrimSpace p.Title = "" then
        (s, ⟨400, .text "title is required"⟩)
      else
        let s1 := (alloc s ⟨0, TrimSpace p.Title, p.Description, false⟩).1
        let task := (alloc s ⟨0, TrimSpace p.Title, p.Description, false⟩).2
        let m2 : Mem := ⟨setCompleted s1.mem.heap task p.Completed, s1.mem.store⟩
        let m3 := (Create m2 task).1
        (⟨m3, s1.brk⟩, ⟨201, .task (m3.heap task)⟩)
  | .GET => (s, handleList ρ s.mem (queryGet completed))
  | _ => (s, ⟨405, .text "method not allowed"⟩)

/-- The handler of `/tasks/{id}`.  `id` is the result of `strconv.ParseInt` on the
path segment (`none` when it fails), `body` the decoded JSON body (`none` when
decoding fails). -/
def handleTask (s : Server) (method : Method) (id : Option Int)
    (body : Option UpdateTaskPayload) : Server × Response :=
  match id with
  | none => (s, ⟨400, .text "invalid id"⟩)
  | some id =>
    match method with
    | .GET =>
      match GetByID s.mem id with
      | none => (s, ⟨404, .text "task not found"⟩)
      | some t => (s, ⟨200, .task (s.mem.heap t)⟩)
    | .PUT =>
      match body with
      | none => (s, ⟨400, .text "invalid JSON body"⟩)
      | some p =>
        match (Update s.mem id p).2 with
        | .error msg =>
          if msg = "not found" then
            (⟨(Update s.mem id p).1, s.brk⟩, ⟨404, .text "task not found"⟩)
          else
            (⟨(Update s.mem id p).1, s.brk⟩, ⟨400, .text msg⟩)
        | .ok updated =>
          (⟨(Update s.mem id p).1, s.brk⟩, ⟨200, .task ((Update s.mem id p).1.heap updated)⟩)
    | .DELETE =>
      if (Delete s.mem id).2 then
        (⟨(Delete s.mem id).1, s.brk⟩, ⟨204, .empty⟩)
      else
        (⟨(Delete s.mem id).1, s.brk⟩, ⟨404, .text "task not found"⟩)
    | _ => (s, ⟨405, .text "method not allowed"⟩)

/-- One HTTP request, as the router hands it to a handler. -/
inductive Request where
  | tasks (ρ : RangeOrder) (method : Method) (body : Option CreateTaskPayload)
      (completed : List String)
  | task (method : Method) (id : Option Int) (body : Option UpdateTaskPayload)

/-- The server answering one request. -/
def serve (s : Server) : Request → Server × Response
  | .tasks ρ method body completed => handleTasks ρ s method body completed
  | .task method id body => handleTask s method id body

/-- The server after a sequence of requests. -/
def serveAll (s : Server) : List Request → Server
  | [] => s
  | r :: rs => serveAll (serve s r).1 rs

/-! ## Callers of the store -/

/-- A `Create` call is given a fresh task when the store does not already hold its
pointer; the property for every `Create` of a sequence of calls. -/
def FreshCreates (m : Mem) : List Op → Prop
  | [] => True
  | .Create t :: ops => (∀ k, GetByID m k ≠ some t) ∧ FreshCreates (Create m t).1 ops
  | op :: ops => FreshCreates (step m op).1 ops

/-- A caller writing through a `*Task` it holds, as in `*t = v`: the store is not
involved. -/
def writeTask (m : Mem) (t : Ptr) (v : Task) : Mem :=
  ⟨Function.update m.heap t v, m.store⟩

/-- The invariant of the running server: every pointer the store holds is an
allocated object and its title is not blank. -/
def StoredTitlesValid (s : Server) : Prop :=
  ∀ k p, GetByID s.mem k = some p → p < s.brk ∧ TrimSpace (s.mem.heap p).Title ≠ ""

/-! ## Arithmetic of the id counter -/

theorem wrapInt64_of_inRange (x : Int) (h1 : -9223372036854775808 ≤ x)
    (h2 : x < 9223372036854775808) : wrapInt64 x = x := by
  unfold wrapInt64
  rw [Int.emod_eq_of_lt (by omega) (by omega)]
  omega

theorem wrapInt64_succ (x : Int) : wrapInt64 (wrapInt64 x + 1) = wrapInt64 (x + 1) := by
  unfold wrapInt64
  omega

theorem wrapInt64_eq_imp_dvd (a b : Int) (h : wrapInt64 a = wrapInt64 b) :
    (18446744073709551616 : Int) ∣ a - b := by
  unfold wrapInt64 at h
  omega

/-! ## Sequences of calls -/

theorem run_append (m : Mem) (as bs : List Op) : run m (as ++ bs) = run (run m as) bs := by
  induction as generalizing m with
  | nil => rfl
  | cons a as ih => exact ih (step m a).1

theorem countCreates_replicate (n : Nat) (t : Ptr) :
    countCreates (List.replicate n (Op.Create t)) = n := by
  induction n with
  | zero => rfl
  | succ n ih => rw [List.replicate_succ, countCreates, ih]

theorem step_next (m : Mem) (op : Op) :
    (step m op).1.store.next
      = match op with
        | .Create _ => wrapInt64 (m.store.next + 1)
        | _ => m.store.next := by
  cases op with
  | Create t => rfl
  | GetAll ρ => rfl
  | GetByID id => rfl
  | Update id upd =>
    simp only [step, Update]
    split
    · rfl
    · split
      · split <;> rfl
      · rfl
  | Delete id =>
    simp only [step, Delete]
    split <;> rfl

/-- After a sequence of calls the counter has advanced, with wrap-around, by the
number of `Create` calls. -/
theorem run_next (ops : List Op) (m : Mem) (b : Int) (hb : m.store.next = wrapInt64 b) :
    (run m ops).store.next = wrapInt64 (b + countCreates ops) := by
  induction ops generalizing m b with
  | nil => simpa [run, countCreates] using hb
  | cons op ops ih =>
    cases op with
    | Create t =>
      have h1 : (step m (Op.Create t)).1.store.next = wrapInt64 (b + 1) := by
        rw [step_next, hb, wrapInt64_succ]
      rw [run, ih _ (b + 1) h1, countCreates]
      congr 1; push_cast; ring
    | GetAll ρ => exact ih _ b (by rw [step_next]; exact hb)
    | GetByID id => exact ih _ b (by rw [step_next]; exact hb)
    | Update id upd => exact ih _ b (by rw [step_next]; exact hb)
    | Delete id => exact ih _ b (by rw [step_next]; exact hb)

/-- The ids handed out by a sequence of calls are the successive values of the
counter. -/
theorem createdIds_eq (ops : List Op) (m : Mem) (b : Int) (hb : m.store.next = wrapInt64 b) :
    createdIds m ops
      = (List.range (countCreates ops)).map (fun j : Nat => wrapInt64 (b + j)) := by
  induction ops generalizing m b with
  | nil => rfl
  | cons op ops ih =>
    cases op with
    | Create t =>
      have h1 : (Create m t).1.store.next = wrapInt64 (b + 1) := by
        show wrapInt64 (m.store.next + 1) = _
        rw [hb, wrapInt64_succ]
      have h0 : ((Create m t).1.heap (Create m t).2).ID = wrapInt64 (b + (0 : Nat)) := by
        simp [Create, hb]
      rw [createdIds, ih _ (b + 1) h1, countCreates, List.range_succ_eq_map, List.map_cons,
        List.map_map, h0]
      congr 1
      apply List.map_congr_left
      intro j _
      simp only [Function.comp, Nat.succ_eq_add_one]
      congr 1; push_cast; ring
    | GetAll ρ => exact ih _ b (by rw [step_next]; exact hb)
    | GetByID id => exact ih _ b (by rw [step_next]; exact hb)
    | Update id upd => exact ih _ b (by rw [step_next]; exact hb)
    | Delete id => exact ih _ b (by rw [step_next]; exact hb)

/-- C1 (amended): in a sequence of store calls on a fresh store with at most
2^63 - 1 calls of Create, the id returned by each Create is strictly greater than the
id returned by every earlier Create. -/
theorem create_ids_strictly_increasing (h : Heap) (ops : List Op)
    (hc : countCreates ops ≤ 9223372036854775807) :
    (createdIds (initMem h) ops).Pairwise (fun a b => a < b) := by
  rw [createdIds_eq ops (initMem h) 1 (by rfl), List.pairwise_map]
  refine List.Pairwise.imp_of_mem ?_ (List.pairwise_lt_range _)
  intro i j hi hj hij
  rw [List.mem_range] at hi hj
  rw [wrapInt64_of_inRange _ (by omega) (by omega),
    wrapInt64_of_inRange _ (by omega) (by omega)]
  omega

theorem create_ids_strictly_increasing_witness :
    countCreates [Op.Create 0, Op.Delete 1, Op.Create 1, Op.Create 0] ≤ 9223372036854775807 ∧
    (createdIds (initMem (fun _ => ⟨0, "Buy milk", "", false⟩))
      [Op.Create 0, Op.Delete 1, Op.Create 1, Op.Create 0]).Pairwise (fun a b => a < b) :=
  ⟨by decide, create_ids_strictly_increasing _ _ (by decide)⟩

/-- C1 (as stated) fails: after 2^63 - 1 calls of Create the int64 counter wraps, so
in a sequence of 2^63 calls the first Create returns 1 and the last returns -2^63. -/
theorem create_ids_wrap_counterexample :
    (createdIds (initMem (fun _ => ⟨0, "Buy milk", "", false⟩))
        (List.replicate 9223372036854775808 (Op.Create 0)))[0]? = some 1 ∧
    (createdIds (initMem (fun _ => ⟨0, "Buy milk", "", false⟩))
        (List.replicate 9223372036854775808 (Op.Create 0)))[9223372036854775807]?
      = some (-9223372036854775808) ∧
    ¬ (createdIds (initMem (fun _ => ⟨0, "Buy milk", "", false⟩))
        (List.replicate 9223372036854775808 (Op.Create 0))).Pairwise (fun a b => a < b) := by
  have e := createdIds_eq (List.replicate 9223372036854775808 (Op.Create 0))
    (initMem (fun _ => ⟨0, "Buy milk", "", false⟩)) 1 (by rfl)
  rw [countCreates_replicate] at e
  have e0 : (createdIds (initMem (fun _ => ⟨0, "Buy milk", "", false⟩))
      (List.replicate 9223372036854775808 (Op.Create 0)))[0]? = some 1 := by
    rw [e, List.getElem?_map, List.getElem?_range (by omega)]
    rfl
  have e1 : (createdIds (initMem (fun _ => ⟨0, "Buy milk", "", false⟩))
      (List.replicate 9223372036854775808 (Op.Create 0)))[9223372036854775807]?
      = some (-9223372036854775808) := by
    rw [e, List.getElem?_map, List.getElem?_range (by omega)]
    rfl
  refine ⟨e0, e1, ?_⟩
  intro hp
  rw [List.pairwise_iff_getElem] at hp
  have hlen : (createdIds (initMem (fun _ => ⟨0, "Buy milk", "", false⟩))
      (List.replicate 9223372036854775808 (Op.Create 0))).length = 9223372036854775808 := by
    rw [e, List.length_map, List.length_range]
  have := hp 0 9223372036854775807 (by omega) (by omega) (by omega)
  rw [List.getElem_eq_iff.mpr e0, List.getElem_eq_iff.mpr e1] at this
  omega

theorem Update_store (m : Mem) (id : Int) (upd : UpdateTaskPayload) :
    (Update m id upd).1.store = m.store := by
  simp only [Update]
  split
  · rfl
  · split
    · split <;> rfl
    · rfl

theorem Delete_keys (m : Mem) (id k : Int) :
    k ∈ (Delete m id).1.store.tasks ↔ k ≠ id ∧ k ∈ m.store.tasks := by
  simp only [Delete]
  split
  · next hnone =>
    constructor
    · intro hk
      refine ⟨?_, hk⟩
      rintro rfl
      exact (AList.lookup_eq_none.mp hnone) hk
    · exact fun hk => hk.2
  · exact AList.mem_erase

/-- Every key of the map after a sequence of calls was a key before or is an id handed
out by a `Create` of the sequence. -/
theorem run_keys (ops : List Op) (m : Mem) (k : Int) (hk : k ∈ (run m ops).store.tasks) :
    k ∈ m.store.tasks ∨ k ∈ createdIds m ops := by
  induction ops generalizing m with
  | nil => exact Or.inl hk
  | cons op ops ih =>
    cases op with
    | Create t =>
      rcases ih _ hk with h | h
      · have h2 : k ∈ (m.store.tasks.insert m.store.next t) := by
          simpa [step, Create] using h
        rcases (AList.mem_insert _).mp h2 with h3 | h3
        · right
          rw [createdIds]
          simp [Create, h3]
        · exact Or.inl h3
      · right
        rw [createdIds]
        exact List.mem_cons_of_mem _ h
    | GetAll ρ => exact ih _ hk
    | GetByID id => exact ih _ hk
    | Update id upd =>
      rcases ih _ hk with h | h
      · left
        have h2 : (step m (Op.Update id upd)).1.store = m.store := Update_store m id upd
        rwa [h2] at h
      · exact Or.inr h
    | Delete id =>
      rcases ih _ hk with h | h
      · exact Or.inl ((Delete_keys m id k).mp h).2
      · exact Or.inr h

theorem Delete_next (m : Mem) (id : Int) : (Delete m id).1.store.next = m.store.next := by
  simp only [Delete]
  split <;> rfl

theorem Delete_true_iff (m : Mem) (id : Int) : (Delete m id).2 = true ↔ id ∈ m.store.tasks := by
  simp only [Delete]
  split
  · next hnone => simpa using AList.lookup_eq_none.mp hnone
  · next t hsome =>
    simpa using AList.lookup_isSome.mp (by rw [hsome]; rfl)

/-- C2 (amended): in a sequence of store calls on a fresh store with at most 2^64
calls of Create in all, once Delete(id) has returned true, GetByID(id) reports
not-found after any further calls and none of the further calls of Create returns
that id. -/
theorem deleted_id_not_reused (h : Heap) (ops1 ops2 : List Op) (id : Int)
    (hdel : (Delete (run (initMem h) ops1) id).2 = true)
    (hc : countCreates ops1 + countCreates ops2 ≤ 18446744073709551616) :
    GetByID (run (Delete (run (initMem h) ops1) id).1 ops2) id = none ∧
    id ∉ createdIds (Delete (run (initMem h) ops1) id).1 ops2 := by
  have hkey : id ∈ (run (initMem h) ops1).store.tasks := (Delete_true_iff _ _).mp hdel
  have hold : id ∈ createdIds (initMem h) ops1 := by
    rcases run_keys ops1 (initMem h) id hkey with h0 | h0
    · exact absurd h0 (by simp [initMem, NewStore])
    · exact h0
  rw [createdIds_eq ops1 (initMem h) 1 (by rfl), List.mem_map] at hold
  obtain ⟨j, hj, hjid⟩ := hold
  rw [List.mem_range] at hj
  have hnext : (Delete (run (initMem h) ops1) id).1.store.next
      = wrapInt64 (1 + countCreates ops1) := by
    rw [Delete_next, run_next ops1 (initMem h) 1 (by rfl)]
  have hfresh : id ∉ createdIds (Delete (run (initMem h) ops1) id).1 ops2 := by
    rw [createdIds_eq ops2 _ _ hnext, List.mem_map]
    rintro ⟨i, hi, hiid⟩
    rw [List.mem_range] at hi
    have hd := wrapInt64_eq_imp_dvd _ _ (hiid.trans hjid.symm)
    omega
  refine ⟨?_, hfresh⟩
  rw [GetByID, AList.lookup_eq_none]
  intro hmem
  rcases run_keys ops2 _ id hmem with h0 | h0
  · exact ((Delete_keys _ id id).mp h0).1 rfl
  · exact hfresh h0

theorem deleted_id_not_reused_witness :
    (Delete (run (initMem (fun _ => ⟨0, "Buy milk", "", false⟩)) [Op.Create 0, Op.Create 1]) 1).2
      = true ∧
    countCreates [Op.Create 0, Op.Create 1] + countCreates [Op.Create 2, Op.Create 0]
      ≤ 18446744073709551616 ∧
    GetByID (run (Delete (run (initMem (fun _ => ⟨0, "Buy milk", "", false⟩))
      [Op.Create 0, Op.Create 1]) 1).1 [Op.Create 2, Op.Create 0]) 1 = none ∧
    (1 : Int) ∉ createdIds (Delete (run (initMem (fun _ => ⟨0, "Buy milk", "", false⟩))
      [Op.Create 0, Op.Create 1]) 1).1 [Op.Create 2, Op.Create 0] :=
  ⟨by decide, by decide, deleted_id_not_reused _ _ _ _ (by decide) (by decide)⟩

theorem GetByID_Create (m : Mem) (t : Ptr) :
    GetByID (Create m t).1 m.store.next = some t := by
  simp [GetByID, Create, AList.lookup_insert]

/-- C2 (as stated) fails: ids are int64 values, so the counter comes back to an id
already handed out.  Create, then Delete(1), then 2^64 further calls of Create: the
last of them returns id 1 again and GetByID(1) finds a task. -/
theorem deleted_id_reused_counterexample :
    (Delete (run (initMem (fun _ => ⟨0, "Buy milk", "", false⟩)) [Op.Create 0]) 1).2 = true ∧
    (1 : Int) ∈ createdIds
      (Delete (run (initMem (fun _ => ⟨0, "Buy milk", "", false⟩)) [Op.Create 0]) 1).1
      (List.replicate 18446744073709551616 (Op.Create 0)) ∧
    GetByID (run
      (Delete (run (initMem (fun _ => ⟨0, "Buy milk", "", false⟩)) [Op.Create 0]) 1).1
      (List.replicate 18446744073709551616 (Op.Create 0))) 1 = some 0 := by
  have hnext : (Delete (run (initMem (fun _ => ⟨0, "Buy milk", "", false⟩))
      [Op.Create 0]) 1).1.store.next = wrapInt64 2 := by decide
  refine ⟨by decide, ?_, ?_⟩
  · rw [createdIds_eq _ _ 2 hnext, countCreates_replicate, List.mem_map]
    exact ⟨18446744073709551615, List.mem_range.mpr (by omega), by rfl⟩
  · have hsplit : List.replicate 18446744073709551616 (Op.Create 0)
        = List.replicate 18446744073709551615 (Op.Create 0) ++ [Op.Create 0] :=
      List.replicate_succ' 18446744073709551615 (Op.Create 0)
    have hlast : (run (Delete (run (initMem (fun _ => ⟨0, "Buy milk", "", false⟩))
        [Op.Create 0]) 1).1 (List.replicate 18446744073709551615 (Op.Create 0))).store.next
        = 1 := by
      rw [run_next _ _ 2 hnext, countCreates_replicate]
      rfl
    rw [hsplit, run_append]
    have := GetByID_Create (run (Delete (run (initMem (fun _ => ⟨0, "Buy milk", "", false⟩))
        [Op.Create 0]) 1).1 (List.replicate 18446744073709551615 (Op.Create 0))) 0
    rw [hlast] at this
    exact this

/-! ## Update -/

/-- C3: for every store state, every id present in the store and every payload whose
title is supplied and blank (TrimSpace gives the empty string), Update returns the
error "title cannot be empty" and leaves the whole state unchanged, whatever the
payload supplies for description and completed. -/
theorem update_blank_title_rejected (m : Mem) (id : Int) (upd : UpdateTaskPayload)
    (title : String) (hid : id ∈ m.store.tasks) (ht : upd.Title = some title)
    (hblank : TrimSpace title = "") :
    Update m id upd = (m, .error "title cannot be empty") := by
  obtain ⟨t, hsome⟩ := Option.isSome_iff_exists.mp (AList.lookup_isSome.mpr hid)
  simp only [Update, hsome, ht, hblank, if_true]

theorem update_blank_title_rejected_witness :
    (1 : Int) ∈ (run (initMem (fun _ => ⟨0, "Buy milk", "", false⟩)) [Op.Create 0]).store.tasks ∧
    TrimSpace " \t " = "" ∧
    Update (run (initMem (fun _ => ⟨0, "Buy milk", "", false⟩)) [Op.Create 0]) 1
        ⟨some " \t ", some "later", some true⟩
      = (run (initMem (fun _ => ⟨0, "Buy milk", "", false⟩)) [Op.Create 0],
          .error "title cannot be empty") :=
  ⟨by decide, by decide,
    update_blank_title_rejected _ 1 ⟨some " \t ", some "later", some true⟩ " \t "
      (by decide) rfl (by decide)⟩

/-- C4: for every store state, id and payload, Update returns the "not found" error if
and only if the id is not a key of the store, whatever the payload contains, and in
that case the state (tasks, counter and task objects) is unchanged. -/
theorem update_not_found_iff (m : Mem) (id : Int) (upd : UpdateTaskPayload) :
    ((Update m id upd).2 = .error "not found" ↔ id ∉ m.store.tasks) ∧
    (id ∉ m.store.tasks → (Update m id upd).1 = m) := by
  rw [← AList.lookup_eq_none]
  simp only [Update]
  split
  · next hnone => simp [hnone]
  · next t hsome =>
    rw [hsome]
    split
    · split
      · exact ⟨⟨fun h => absurd h (by simp), fun h => absurd h (by simp)⟩,
          fun h => absurd h (by simp)⟩
      · exact ⟨⟨fun h => absurd h (by simp), fun h => absurd h (by simp)⟩,
          fun h => absurd h (by simp)⟩
    · exact ⟨⟨fun h => absurd h (by simp), fun h => absurd h (by simp)⟩,
        fun h => absurd h (by simp)⟩

theorem update_not_found_iff_witness :
    (Update (run (initMem (fun _ => ⟨0, "Buy milk", "", false⟩)) [Op.Create 0]) 7
      ⟨some " ", none, some true⟩).2 = .error "not found" ∧
    (Update (run (initMem (fun _ => ⟨0, "Buy milk", "", false⟩)) [Op.Create 0]) 7
      ⟨some " ", none, some true⟩).1
      = run (initMem (fun _ => ⟨0, "Buy milk", "", false⟩)) [Op.Create 0] :=
  ⟨(update_not_found_iff _ 7 ⟨some " ", none, some true⟩).1.mpr (by decide),
    (update_not_found_iff _ 7 ⟨some " ", none, some true⟩).2 (by decide)⟩

theorem setDescription_apply (h : Heap) (t : Ptr) (d : Option String) :
    setDescription h t d t = { h t with Description := d.getD (h t).Description } := by
  cases d <;> simp [setDescription]

theorem setCompleted_apply (h : Heap) (t : Ptr) (c : Option Bool) :
    setCompleted h t c t = { h t with Completed := c.getD (h t).Completed } := by
  cases c <;> simp [setCompleted]

/-- C5: for every store state, every present id and every payload whose title is not
supplied or is non-blank, Update succeeds; the task it returns is the task now stored
under id; each of title, description and completed of that task is the supplied value
if the field was supplied (the title verbatim) and the previous value otherwise; and
with no field supplied the state is unchanged. -/
theorem update_applies_supplied_fields (m : Mem) (id : Int) (upd : UpdateTaskPayload)
    (hid : id ∈ m.store.tasks)
    (htitle : ∀ title, upd.Title = some title → TrimSpace title ≠ "") :
    ∃ t, GetByID m id = some t ∧
      (Update m id upd).2 = .ok t ∧
      GetByID (Update m id upd).1 id = some t ∧
      (Update m id upd).1.heap t =
        { ID := (m.heap t).ID
          Title := upd.Title.getD (m.heap t).Title
          Description := upd.Description.getD (m.heap t).Description
          Completed := upd.Completed.getD (m.heap t).Completed } ∧
      (upd = ⟨none, none, none⟩ → (Update m id upd).1 = m) := by
  obtain ⟨t, hsome⟩ := Option.isSome_iff_exists.mp (AList.lookup_isSome.mpr hid)
  refine ⟨t, hsome, ?_⟩
  obtain ⟨ti, de, co⟩ := upd
  cases ti with
  | none =>
    have hU : Update m id ⟨none, de, co⟩
        = (⟨setCompleted (setDescription m.heap t de) t co, m.store⟩, .ok t) := by
      simp only [Update, hsome]
    rw [hU]
    refine ⟨rfl, hsome, ?_, ?_⟩
    · show setCompleted (setDescription m.heap t de) t co t = _
      rw [setCompleted_apply, setDescription_apply]
      cases de <;> rfl
    · intro hnone
      injection hnone with _ h2 h3
      subst h2 h3
      rfl
  | some title =>
    have hnb : TrimSpace title ≠ "" := htitle title rfl
    have hU : Update m id ⟨some title, de, co⟩
        = (⟨setCompleted (setDescription (setTitle m.heap t title) t de) t co, m.store⟩,
            .ok t) := by
      simp only [Update, hsome, hnb, if_false]
    rw [hU]
    refine ⟨rfl, hsome, ?_, ?_⟩
    · show setCompleted (setDescription (setTitle m.heap t title) t de) t co t = _
      rw [setCompleted_apply, setDescription_apply]
      cases de <;> simp [setTitle]
    · intro hnone
      injection hnone with h1
      exact absurd h1 (by simp)

theorem update_applies_supplied_fields_witness :
    (1 : Int) ∈ (run (initMem (fun _ => ⟨0, "Buy milk", "", false⟩)) [Op.Create 0]).store.tasks ∧
    TrimSpace " Buy tea" ≠ "" ∧
    ∃ t, GetByID (run (initMem (fun _ => ⟨0, "Buy milk", "", false⟩)) [Op.Create 0]) 1 = some t ∧
      (Update (run (initMem (fun _ => ⟨0, "Buy milk", "", false⟩)) [Op.Create 0]) 1
        ⟨some " Buy tea", none, some true⟩).2 = .ok t ∧
      GetByID (Update (run (initMem (fun _ => ⟨0, "Buy milk", "", false⟩)) [Op.Create 0]) 1
        ⟨some " Buy tea", none, some true⟩).1 1 = some t ∧
      (Update (run (initMem (fun _ => ⟨0, "Buy milk", "", false⟩)) [Op.Create 0]) 1
        ⟨some " Buy tea", none, some true⟩).1.heap t =
        { ID := ((run (initMem (fun _ => ⟨0, "Buy milk", "", false⟩)) [Op.Create 0]).heap t).ID
          Title := (some " Buy tea").getD
            ((run (initMem (fun _ => ⟨0, "Buy milk", "", false⟩)) [Op.Create 0]).heap t).Title
          Description := (none : Option String).getD
            ((run (initMem (fun _ => ⟨0, "Buy milk", "", false⟩)) [Op.Create 0]).heap t).Description
          Completed := (some true).getD
            ((run (initMem (fun _ => ⟨0, "Buy milk", "", false⟩)) [Op.Create 0]).heap t).Completed } ∧
      ((⟨some " Buy tea", none, some true⟩ : UpdateTaskPayload) = ⟨none, none, none⟩ →
        (Update (run (initMem (fun _ => ⟨0, "Buy milk", "", false⟩)) [Op.Create 0]) 1
          ⟨some " Buy tea", none, some true⟩).1
          = run (initMem (fun _ => ⟨0, "Buy milk", "", false⟩)) [Op.Create 0]) :=
  ⟨by decide, by decide,
    update_applies_supplied_fields _ 1 ⟨some " Buy tea", none, some true⟩ (by decide)
      (by intro title ht; injection ht with ht; subst ht; decide)⟩

theorem setDescription_of_ne (h : Heap) (t p : Ptr) (d : Option String) (hp : p ≠ t) :
    setDescription h t d p = h p := by
  cases d <;> simp [setDescription, Function.update_noteq hp]

theorem setCompleted_of_ne (h : Heap) (t p : Ptr) (c : Option Bool) (hp : p ≠ t) :
    setCompleted h t c p = h p := by
  cases c <;> simp [setCompleted, Function.update_noteq hp]

theorem setTitle_of_ne (h : Heap) (t p : Ptr) (v : String) (hp : p ≠ t) :
    setTitle h t v p = h p := by
  simp [setTitle, Function.update_noteq hp]

theorem setDescription_ID (h : Heap) (t p : Ptr) (d : Option String) :
    (setDescription h t d p).ID = (h p).ID := by
  by_cases hp : p = t
  · subst hp; rw [setDescription_apply]
  · rw [setDescription_of_ne h t p d hp]

theorem setCompleted_ID (h : Heap) (t p : Ptr) (c : Option Bool) :
    (setCompleted h t c p).ID = (h p).ID := by
  by_cases hp : p = t
  · subst hp; rw [setCompleted_apply]
  · rw [setCompleted_of_ne h t p c hp]

theorem setTitle_ID (h : Heap) (t p : Ptr) (v : String) :
    (setTitle h t v p).ID = (h p).ID := by
  by_cases hp : p = t
  · subst hp; simp [setTitle]
  · rw [setTitle_of_ne h t p v hp]

/-- C6 (amended): for every store state, id and payload, Update leaves the map
(its keys and the pointer under each key) and the counter unchanged, leaves the ID
field of every task unchanged, and leaves every task object other than the addressed
one unchanged: a task stored under a different id is unchanged unless that id holds
the very task object stored under the addressed id. -/
theorem update_frame (m : Mem) (id : Int) (upd : UpdateTaskPayload) :
    (Update m id upd).1.store = m.store ∧
    (∀ p, ((Update m id upd).1.heap p).ID = (m.heap p).ID) ∧
    (∀ k p, GetByID m k = some p → GetByID m id ≠ some p →
      (Update m id upd).1.heap p = m.heap p) := by
  refine ⟨Update_store m id upd, ?_, ?_⟩
  · intro p
    simp only [Update]
    split
    · rfl
    · split
      · split
        · rfl
        · show (setCompleted _ _ _ p).ID = _
          rw [setCompleted_ID, setDescription_ID, setTitle_ID]
      · show (setCompleted _ _ _ p).ID = _
        rw [setCompleted_ID, setDescription_ID]
  · intro k p _ hne
    simp only [GetByID] at hne
    simp only [Update]
    split
    · rfl
    · next t hsome =>
      have hp : p ≠ t := by
        rintro rfl
        exact hne hsome
      split
      · split
        · rfl
        · show setCompleted _ _ _ p = _
          rw [setCompleted_of_ne _ _ _ _ hp, setDescription_of_ne _ _ _ _ hp,
            setTitle_of_ne _ _ _ _ hp]
      · show setCompleted _ _ _ p = _
        rw [setCompleted_of_ne _ _ _ _ hp, setDescription_of_ne _ _ _ _ hp]

theorem update_frame_witness :
    GetByID (run (initMem (fun _ => ⟨0, "Buy milk", "", false⟩)) [Op.Create 0, Op.Create 1]) 1
      = some 0 ∧
    GetByID (run (initMem (fun _ => ⟨0, "Buy milk", "", false⟩)) [Op.Create 0, Op.Create 1]) 2
      ≠ some 0 ∧
    (Update (run (initMem (fun _ => ⟨0, "Buy milk", "", false⟩)) [Op.Create 0, Op.Create 1]) 2
        ⟨some "Buy tea", some "green", some true⟩).1.heap 0
      = (run (initMem (fun _ => ⟨0, "Buy milk", "", false⟩)) [Op.Create 0, Op.Create 1]).heap 0 :=
  ⟨by decide, by decide,
    (update_frame _ 2 ⟨some "Buy tea", some "green", some true⟩).2.2 1 0 (by decide)
      (by decide)⟩

/-- C6 (as stated) fails when two ids hold the same task object, which the store
allows: after Create(t) twice with the same pointer t, ids 1 and 2 both hold t, and
Update(2, completed=true) changes the task stored under id 1. -/
theorem update_changes_other_id_counterexample :
    GetByID (run (initMem (fun _ => ⟨0, "Buy milk", "", false⟩)) [Op.Create 0, Op.Create 0]) 1
      = some 0 ∧
    ((run (initMem (fun _ => ⟨0, "Buy milk", "", false⟩)) [Op.Create 0, Op.Create 0]).heap
      0).Completed = false ∧
    (Update (run (initMem (fun _ => ⟨0, "Buy milk", "", false⟩)) [Op.Create 0, Op.Create 0]) 2
      ⟨none, none, some true⟩).2 = .ok 0 ∧
    GetByID (Update (run (initMem (fun _ => ⟨0, "Buy milk", "", false⟩))
      [Op.Create 0, Op.Create 0]) 2 ⟨none, none, some true⟩).1 1 = some 0 ∧
    ((Update (run (initMem (fun _ => ⟨0, "Buy milk", "", false⟩)) [Op.Create 0, Op.Create 0]) 2
      ⟨none, none, some true⟩).1.heap 0).Completed = true := by
  decide

/-! ## Delete -/

/-- C7: for every store state and id, Delete(id) returns true if and only if id was a
key; when it returns true the resulting store has no task under id and every other id
holds the same task as before; when it returns false the state is unchanged; in both
cases the counter and the task objects are unchanged, and a second Delete of the same
id returns false. -/
theorem delete_spec (m : Mem) (id : Int) :
    ((Delete m id).2 = true ↔ id ∈ m.store.tasks) ∧
    ((Delete m id).2 = true →
      GetByID (Delete m id).1 id = none ∧
      ∀ k, k ≠ id → GetByID (Delete m id).1 k = GetByID m k) ∧
    ((Delete m id).2 = false → (Delete m id).1 = m) ∧
    (Delete m id).1.store.next = m.store.next ∧
    (Delete m id).1.heap = m.heap ∧
    (Delete (Delete m id).1 id).2 = false := by
  refine ⟨Delete_true_iff m id, ?_, ?_, Delete_next m id, ?_, ?_⟩
  · intro _
    simp only [Delete, GetByID]
    split
    · next hnone => exact ⟨hnone, fun _ _ => rfl⟩
    · exact ⟨AList.lookup_erase id _, fun k hk => AList.lookup_erase_ne hk⟩
  · simp only [Delete]
    split
    · intro _; rfl
    · intro hf; exact absurd hf (by simp)
  · simp only [Delete]
    split <;> rfl
  · have hnot : id ∉ (Delete m id).1.store.tasks := fun hmem =>
      ((Delete_keys m id id).mp hmem).1 rfl
    cases hb : (Delete (Delete m id).1 id).2 with
    | false => rfl
    | true => exact absurd ((Delete_true_iff _ _).mp hb) hnot

theorem delete_spec_witness :
    (Delete (run (initMem (fun _ => ⟨0, "Buy milk", "", false⟩)) [Op.Create 0, Op.Create 1]) 1).2
      = true ∧
    GetByID (Delete (run (initMem (fun _ => ⟨0, "Buy milk", "", false⟩))
      [Op.Create 0, Op.Create 1]) 1).1 1 = none ∧
    GetByID (Delete (run (initMem (fun _ => ⟨0, "Buy milk", "", false⟩))
      [Op.Create 0, Op.Create 1]) 1).1 2
      = GetByID (run (initMem (fun _ => ⟨0, "Buy milk", "", false⟩)) [Op.Create 0, Op.Create 1]) 2 ∧
    (Delete (run (initMem (fun _ => ⟨0, "Buy milk", "", false⟩)) [Op.Create 0, Op.Create 1]) 7).2
      = false ∧
    (Delete (run (initMem (fun _ => ⟨0, "Buy milk", "", false⟩)) [Op.Create 0, Op.Create 1]) 7).1
      = run (initMem (fun _ => ⟨0, "Buy milk", "", false⟩)) [Op.Create 0, Op.Create 1] :=
  ⟨by decide,
    ((delete_spec _ 1).2.1 (by decide)).1,
    ((delete_spec _ 1).2.1 (by decide)).2 2 (by decide),
    by decide,
    (delete_spec _ 7).2.2.1 (by decide)⟩

/-! ## Create and GetByID -/

/-- As long as fewer than 2^64 tasks have been created on a fresh store, the counter
is not a key of the map. -/
theorem run_next_not_key (h : Heap) (ops : List Op)
    (hc : countCreates ops < 18446744073709551616) :
    (run (initMem h) ops).store.next ∉ (run (initMem h) ops).store.tasks := by
  intro hmem
  rcases run_keys ops (initMem h) _ hmem with h0 | h0
  · exact absurd h0 (by simp [initMem, NewStore])
  · rw [createdIds_eq ops (initMem h) 1 (by rfl), List.mem_map] at h0
    obtain ⟨j, hj, hjid⟩ := h0
    rw [List.mem_range] at hj
    rw [run_next ops (initMem h) 1 (by rfl)] at hjid
    have hd := wrapInt64_eq_imp_dvd _ _ hjid
    omega

theorem Create_tasks (m : Mem) (t : Ptr) :
    (Create m t).1.store.tasks = m.store.tasks.insert m.store.next t := by
  simp [Create]

theorem Create_lookup_ne (m : Mem) (t : Ptr) (k : Int) (hk : k ≠ m.store.next) :
    GetByID (Create m t).1 k = GetByID m k := by
  rw [GetByID, GetByID, Create_tasks]
  exact AList.lookup_insert_ne hk

/-- Creating tasks does not touch a key that is not among the ids handed out. -/
theorem run_replicate_lookup (n : Nat) (t : Ptr) (m : Mem) (k : Int)
    (hk : k ∉ createdIds m (List.replicate n (Op.Create t))) :
    GetByID (run m (List.replicate n (Op.Create t))) k = GetByID m k := by
  induction n generalizing m with
  | zero => rfl
  | succ n ih =>
    rw [List.replicate_succ, createdIds, List.mem_cons, not_or] at hk
    rw [List.replicate_succ, run]
    show GetByID (run (Create m t).1 (List.replicate n (Op.Create t))) k = _
    rw [ih _ hk.2]
    have hne : k ≠ m.store.next := by
      intro he
      apply hk.1
      simp [Create, he]
    exact Create_lookup_ne m t k hne

theorem Delete_lookup_ne (m : Mem) (id k : Int) (hk : k ≠ id) :
    GetByID (Delete m id).1 k = GetByID m k := by
  simp only [Delete, GetByID]
  split
  · rfl
  · exact AList.lookup_erase_ne hk

/-- Every pointer held by the map after a sequence of calls was held before or was
passed to a `Create` of the sequence. -/
theorem run_values (ops : List Op) (m : Mem) (k : Int) (p : Ptr)
    (hk : GetByID (run m ops) k = some p) :
    (∃ j, GetByID m j = some p) ∨ Op.Create p ∈ ops := by
  induction ops generalizing m k with
  | nil => exact Or.inl ⟨k, hk⟩
  | cons op ops ih =>
    rcases ih _ k hk with ⟨j, hj⟩ | h
    · cases op with
      | Create t =>
        by_cases hjn : j = m.store.next
        · right
          have : GetByID (Create m t).1 m.store.next = some t := GetByID_Create m t
          rw [← hjn] at this
          have hpt : p = t := Option.some.inj (hj.symm.trans this)
          rw [hpt]
          exact List.mem_cons_self _ _
        · left
          refine ⟨j, ?_⟩
          rw [← hj]
          exact (Create_lookup_ne m t j hjn).symm
      | GetAll ρ => exact Or.inl ⟨j, hj⟩
      | GetByID id => exact Or.inl ⟨j, hj⟩
      | Update id upd =>
        left
        refine ⟨j, ?_⟩
        have h2 : (step m (Op.Update id upd)).1.store = m.store := Update_store m id upd
        rw [← hj, GetByID, GetByID, h2]
      | Delete id =>
        left
        refine ⟨j, ?_⟩
        by_cases hji : j = id
        · subst hji
          have hmem : j ∈ (Delete m j).1.store.tasks :=
            AList.lookup_isSome.mp (by
              have : (Delete m j).1.store.tasks.lookup j = some p := hj
              rw [this]; rfl)
          exact absurd rfl ((Delete_keys m j j).mp hmem).1
        · rw [← hj]
          exact (Delete_lookup_ne m id j hji).symm
    · exact Or.inr (List.mem_cons_of_mem _ h)

/-- C8 (amended): for every store state, GetByID(id) reports found exactly when id is
a key and never changes the state; for every store state and every task t, after
r := Create(t), r is t, GetByID(r.ID) reports found and yields r, which has t's title,
description and completed, and Create writes nothing but the ID field of t; and for
every state reached from NewStore by a sequence with fewer than 2^64 calls of Create,
every previously stored id still holds the same task object after Create(t). -/
theorem create_then_get (m : Mem) (h : Heap) (ops : List Op) (t : Ptr) (id : Int) :
    ((GetByID m id).isSome ↔ id ∈ m.store.tasks) ∧
    (step m (Op.GetByID id)).1 = m ∧
    (Create m t).2 = t ∧
    GetByID (Create m t).1 ((Create m t).1.heap (Create m t).2).ID
      = some (Create m t).2 ∧
    (Create m t).1.heap (Create m t).2
      = { ID := m.store.next
          Title := (m.heap t).Title
          Description := (m.heap t).Description
          Completed := (m.heap t).Completed } ∧
    (∀ p, ((Create m t).1.heap p).Title = (m.heap p).Title ∧
      ((Create m t).1.heap p).Description = (m.heap p).Description ∧
      ((Create m t).1.heap p).Completed = (m.heap p).Completed ∧
      (p ≠ t → (Create m t).1.heap p = m.heap p)) ∧
    (countCreates ops < 18446744073709551616 →
      ∀ k p, GetByID (run (initMem h) ops) k = some p →
        GetByID (Create (run (initMem h) ops) t).1 k = some p) := by
  refine ⟨AList.lookup_isSome, rfl, rfl, ?_, ?_, ?_, ?_⟩
  · have hid : ((Create m t).1.heap (Create m t).2).ID = m.store.next := by simp [Create]
    rw [hid]
    exact GetByID_Create _ t
  · simp [Create]
  · intro p
    by_cases hpt : p = t
    · subst hpt
      refine ⟨?_, ?_, ?_, fun hne => absurd rfl hne⟩ <;> simp [Create]
    · have hheap : (Create m t).1.heap p = m.heap p := Function.update_noteq hpt _ _
      rw [hheap]
      exact ⟨rfl, rfl, rfl, fun _ => rfl⟩
  · intro hc k p hkp
    have hkey : k ∈ (run (initMem h) ops).store.tasks :=
      AList.lookup_isSome.mp (by
        have : (run (initMem h) ops).store.tasks.lookup k = some p := hkp
        rw [this]; rfl)
    have hne : k ≠ (run (initMem h) ops).store.next := by
      rintro rfl
      exact run_next_not_key h ops hc hkey
    rw [Create_lookup_ne _ t k hne, hkp]

theorem create_then_get_witness :
    countCreates [Op.Create 0, Op.Delete 1, Op.Create 1] < 18446744073709551616 ∧
    GetByID (run (initMem (fun _ => ⟨0, "Buy milk", "", false⟩))
      [Op.Create 0, Op.Delete 1, Op.Create 1]) 2 = some 1 ∧
    GetByID (Create (run (initMem (fun _ => ⟨0, "Buy milk", "", false⟩))
      [Op.Create 0, Op.Delete 1, Op.Create 1]) 1).1 2 = some 1 ∧
    ((1 : Ptr) ≠ 0 ∧
      (Create (run (initMem (fun _ => ⟨0, "Buy milk", "", false⟩))
        [Op.Create 0, Op.Delete 1, Op.Create 1]) 0).1.heap 1
        = (run (initMem (fun _ => ⟨0, "Buy milk", "", false⟩))
          [Op.Create 0, Op.Delete 1, Op.Create 1]).heap 1) :=
  ⟨by decide, by decide,
    (create_then_get (initMem (fun _ => ⟨0, "Buy milk", "", false⟩))
      (fun _ => ⟨0, "Buy milk", "", false⟩) [Op.Create 0, Op.Delete 1, Op.Create 1] 1
      2).2.2.2.2.2.2 (by decide) 2 1 (by decide),
    by decide,
    ((create_then_get (run (initMem (fun _ => ⟨0, "Buy milk", "", false⟩))
      [Op.Create 0, Op.Delete 1, Op.Create 1]) (fun _ => ⟨0, "Buy milk", "", false⟩) [] 0
      2).2.2.2.2.2.1 1).2.2.2 (by decide)⟩

theorem run_cons (m : Mem) (op : Op) (ops : List Op) :
    run m (op :: ops) = run (step m op).1 ops := rfl

/-- C8 (as stated) fails once the int64 counter has wrapped onto a key in use.  After
2^64 calls of Create the counter is back at 1 while id 1 still holds its task; Create
of a task the store does not hold then stores that task under id 1, so id 1 no longer
maps to the task it held. -/
theorem create_changes_stored_counterexample :
    GetByID (run (initMem (fun _ => ⟨0, "Buy milk", "", false⟩))
      (Op.Create 0 :: List.replicate 18446744073709551615 (Op.Create 1))) 1 = some 0 ∧
    (∀ k, GetByID (run (initMem (fun _ => ⟨0, "Buy milk", "", false⟩))
      (Op.Create 0 :: List.replicate 18446744073709551615 (Op.Create 1))) k ≠ some 2) ∧
    GetByID (Create (run (initMem (fun _ => ⟨0, "Buy milk", "", false⟩))
      (Op.Create 0 :: List.replicate 18446744073709551615 (Op.Create 1))) 2).1 1
      = some 2 := by
  refine ⟨?_, ?_, ?_⟩
  · rw [run_cons, run_replicate_lookup]
    · decide
    · rw [createdIds_eq _ _ 2 (by decide), countCreates_replicate, List.mem_map]
      rintro ⟨j, hj, hjid⟩
      rw [List.mem_range] at hj
      have hd := wrapInt64_eq_imp_dvd _ 1 hjid
      omega
  · intro k hk
    rcases run_values _ _ k 2 hk with ⟨j, hj⟩ | hmem
    · exact absurd hj (by simp [GetByID, initMem, NewStore])
    · rcases List.mem_cons.mp hmem with h0 | h1
      · exact absurd h0 (by simp)
      · exact absurd (List.eq_of_mem_replicate h1) (by simp)
  · have hnext : (run (initMem (fun _ => ⟨0, "Buy milk", "", false⟩))
        (Op.Create 0 :: List.replicate 18446744073709551615 (Op.Create 1))).store.next = 1 := by
      rw [run_cons, run_next _ _ 2 (by decide), countCreates_replicate]
      rfl
    have := GetByID_Create (run (initMem (fun _ => ⟨0, "Buy milk", "", false⟩))
        (Op.Create 0 :: List.replicate 18446744073709551615 (Op.Create 1))) 2
    rw [hnext] at this
    exact this

/-! ## GetAll and the list handler -/

theorem foldl_append_singleton {α β : Type} (f : α → β) (l : List α) (acc : List β) :
    l.foldl (fun out e => out ++ [f e]) acc = acc ++ l.map f := by
  induction l generalizing acc with
  | nil => simp
  | cons a l ih => simp [ih]

theorem GetAll_eq_map (ρ : RangeOrder) (m : Mem) :
    GetAll ρ m = (ρ.visit m.store.tasks.entries).map (fun e => e.2) := by
  rw [GetAll, foldl_append_singleton (fun e : Sigma fun _ : Int => Ptr => e.2)]
  rfl

theorem GetAll_perm (ρ : RangeOrder) (m : Mem) :
    (GetAll ρ m).Perm (m.store.tasks.entries.map (fun e => e.2)) := by
  rw [GetAll_eq_map]
  exact (ρ.perm _).map _

/-- C9: for every store state and every iteration order of the map, GetAll returns a
sequence with one element per key that is a permutation of the values of the map, its
elements are exactly the tasks held under some id, and GetAll leaves the state
unchanged. -/
theorem get_all_spec (ρ : RangeOrder) (m : Mem) :
    (GetAll ρ m).length = m.store.tasks.keys.length ∧
    (GetAll ρ m).Perm (m.store.tasks.entries.map (fun e => e.2)) ∧
    (∀ p, p ∈ GetAll ρ m ↔ ∃ k, GetByID m k = some p) ∧
    (step m (Op.GetAll ρ)).1 = m := by
  refine ⟨?_, GetAll_perm ρ m, ?_, rfl⟩
  · rw [(GetAll_perm ρ m).length_eq, List.length_map, AList.keys, List.keys,
      List.length_map]
  · intro p
    rw [(GetAll_perm ρ m).mem_iff, List.mem_map]
    constructor
    · rintro ⟨⟨k, q⟩, he, rfl⟩
      exact ⟨k, Option.mem_def.mp (AList.mem_lookup_iff.mpr he)⟩
    · rintro ⟨k, hk⟩
      exact ⟨⟨k, p⟩, AList.mem_lookup_iff.mp (Option.mem_def.mpr hk), rfl⟩

theorem foldl_filter_append {α : Type} (P : α → Prop) [DecidablePred P] (l acc : List α) :
    l.foldl (fun filtered t => if P t then filtered ++ [t] else filtered) acc
      = acc ++ l.filter (fun t => P t) := by
  induction l generalizing acc with
  | nil => simp
  | cons a l ih =>
    by_cases ha : P a <;> simp [ih, ha, List.filter_cons]

theorem filterCompleted_eq_filter (h : Heap) (all : List Ptr) (completed : Bool) :
    filterCompleted h all completed = all.filter (fun t => (h t).Completed = completed) := by
  rw [filterCompleted, foldl_filter_append (fun t => (h t).Completed = completed)]
  rfl

/-- C10: for every store state (and whatever order each request iterates the map in),
the list handler with completed=true answers exactly the tasks of GetAll whose
completed is true, with completed=false exactly those whose completed is false, the
two answers have no task in common, and together, as multisets, they are the answer
of the unfiltered request. -/
theorem list_filter_partition (ρ₁ ρ₂ ρ₃ : RangeOrder) (m : Mem) :
    handleList ρ₁ m "true"
      = ⟨200, .tasks (((GetAll ρ₁ m).map m.heap).filter (fun t => t.Completed = true))⟩ ∧
    handleList ρ₂ m "false"
      = ⟨200, .tasks (((GetAll ρ₂ m).map m.heap).filter (fun t => t.Completed = false))⟩ ∧
    handleList ρ₃ m "" = ⟨200, .tasks ((GetAll ρ₃ m).map m.heap)⟩ ∧
    List.Disjoint (((GetAll ρ₁ m).map m.heap).filter (fun t => t.Completed = true))
      (((GetAll ρ₂ m).map m.heap).filter (fun t => t.Completed = false)) ∧
    ((((GetAll ρ₁ m).map m.heap).filter (fun t => t.Completed = true) : List Task)
        : Multiset Task)
      + ((((GetAll ρ₂ m).map m.heap).filter (fun t => t.Completed = false) : List Task)
        : Multiset Task)
      = (((GetAll ρ₃ m).map m.heap : List Task) : Multiset Task) := by
  have hT : ParseBool "true" = some true := by decide
  have hF : ParseBool "false" = some false := by decide
  refine ⟨?_, ?_, ?_, ?_, ?_⟩
  · simp only [handleList, hT, filterCompleted_eq_filter, List.filter_map]
    simp [Function.comp_def]
  · simp only [handleList, hF, filterCompleted_eq_filter, List.filter_map]
    simp [Function.comp_def]
  · simp [handleList]
  · intro t h1 h2
    have c1 := (List.mem_filter.mp h1).2
    have c2 := (List.mem_filter.mp h2).2
    simp at c1 c2
    rw [c1] at c2
    exact absurd c2 (by decide)
  · have p12 : ((GetAll ρ₂ m).map m.heap).Perm ((GetAll ρ₁ m).map m.heap) :=
      ((GetAll_perm ρ₂ m).trans (GetAll_perm ρ₁ m).symm).map _
    have p13 : ((GetAll ρ₁ m).map m.heap).Perm ((GetAll ρ₃ m).map m.heap) :=
      ((GetAll_perm ρ₁ m).trans (GetAll_perm ρ₃ m).symm).map _
    rw [Multiset.coe_add, Multiset.coe_eq_coe]
    refine List.Perm.trans ?_ p13
    refine List.Perm.trans (List.Perm.append_left _ (p12.filter _)) ?_
    have := List.filter_append_perm (fun t : Task => decide (t.Completed = true))
      ((GetAll ρ₁ m).map m.heap)
    refine List.Perm.trans ?_ this
    apply List.Perm.append_left
    apply List.Perm.of_eq
    apply List.filter_congr
    intro t _
    cases t.Completed <;> rfl

/-! ## The handlers -/

/-- C11 (amended): for the GET /tasks handler, every non-empty value of the completed
parameter that does not parse as a boolean (for example "notabool") is answered 400
with an error message and no task list, the store being untouched; and when the
parameter is absent or its value is empty (as in `?completed=`) the answer is 200
with the unfiltered list. -/
theorem list_query_validation (ρ : RangeOrder) (s : Server)
    (body : Option CreateTaskPayload) (vs : List String) :
    (queryGet vs ≠ "" → ParseBool (queryGet vs) = none →
      handleTasks ρ s .GET body vs
        = (s, ⟨400, .text "completed query param must be boolean"⟩)) ∧
    (queryGet vs = "" →
      handleTasks ρ s .GET body vs = (s, ⟨200, .tasks ((GetAll ρ s.mem).map s.mem.heap)⟩)) ∧
    queryGet [] = "" ∧
    handleTasks ρ s .GET body ["notabool"]
      = (s, ⟨400, .text "completed query param must be boolean"⟩) := by
  refine ⟨?_, ?_, rfl, ?_⟩
  · intro hne hparse
    simp only [handleTasks, handleList, hne, if_false, hparse]
  · intro he
    simp only [handleTasks, handleList, he, if_true]
  · have h1 : queryGet ["notabool"] ≠ "" := by decide
    have h2 : ParseBool (queryGet ["notabool"]) = none := by decide
    simp only [handleTasks, handleList, h1, if_false, h2]

theorem list_query_validation_witness :
    queryGet ["maybe"] ≠ "" ∧ ParseBool (queryGet ["maybe"]) = none ∧
    handleTasks RangeOrder.asStored
        (handleTasks RangeOrder.asStored (newServer (fun _ => ⟨0, "", "", false⟩)) .POST
          (some ⟨"Buy milk", "", none⟩) []).1 .GET none ["maybe"]
      = ((handleTasks RangeOrder.asStored (newServer (fun _ => ⟨0, "", "", false⟩)) .POST
          (some ⟨"Buy milk", "", none⟩) []).1,
        ⟨400, .text "completed query param must be boolean"⟩) :=
  ⟨by decide, by decide,
    (list_query_validation _ _ none ["maybe"]).1 (by decide) (by decide)⟩

/-- C11 (as stated) fails for the empty value: `?completed=` gives the parameter the
value "", which does not parse as a boolean, yet the handler answers 200 with the
unfiltered list, because it takes the empty string for an absent parameter. -/
theorem list_empty_value_counterexample :
    ParseBool (queryGet [""]) = none ∧
    (handleTasks RangeOrder.asStored
        (handleTasks RangeOrder.asStored (newServer (fun _ => ⟨0, "", "", false⟩)) .POST
          (some ⟨"Buy milk", "", none⟩) []).1 .GET none [""]).2
      = ⟨200, .tasks [⟨1, "Buy milk", "", false⟩]⟩ := by
  decide

theorem setCompleted_fresh (h : Heap) (t : Ptr) (v : Task) (c : Option Bool) :
    setCompleted (Function.update h t v) t c t = { v with Completed := c.getD v.Completed } := by
  rw [setCompleted_apply]
  simp

/-- The state after the POST handler accepted a payload: the new object, at the
address the allocator gave, is stored under the id the counter had. -/
theorem handleTasks_post_ok (ρ : RangeOrder) (s : Server) (p : CreateTaskPayload)
    (vs : List String) (hne : TrimSpace p.Title ≠ "") :
    handleTasks ρ s .POST (some p) vs
      = (⟨(Create ⟨setCompleted (Function.update s.mem.heap s.brk
              ⟨0, TrimSpace p.Title, p.Description, false⟩) s.brk p.Completed,
            s.mem.store⟩ s.brk).1, s.brk + 1⟩,
          ⟨201, .task ⟨s.mem.store.next, TrimSpace p.Title, p.Description,
            p.Completed.getD false⟩⟩) := by
  simp only [handleTasks, hne, if_false, alloc]
  refine Prod.ext rfl ?_
  simp only [Create, Function.update_same, setCompleted_fresh]

/-- C12: for the POST /tasks handler and every decoded payload: if the title is empty
after trimming, the answer is 400 and the server state (tasks, counter, task objects)
is unchanged; otherwise the answer is 201 with the task whose id is the value the
counter had, whose title is the trimmed title, whose description is the payload's and
whose completed is the supplied value or false; that task is a new object stored under
that id, the counter has advanced by one step, every other id holds what it held and
every other task object is unchanged. -/
theorem post_validates_and_creates (ρ : RangeOrder) (s : Server) (p : CreateTaskPayload)
    (vs : List String) :
    (TrimSpace p.Title = "" →
      handleTasks ρ s .POST (some p) vs = (s, ⟨400, .text "title is required"⟩)) ∧
    (TrimSpace p.Title ≠ "" →
      (handleTasks ρ s .POST (some p) vs).2
        = ⟨201, .task ⟨s.mem.store.next, TrimSpace p.Title, p.Description,
            p.Completed.getD false⟩⟩ ∧
      GetByID (handleTasks ρ s .POST (some p) vs).1.mem s.mem.store.next = some s.brk ∧
      (handleTasks ρ s .POST (some p) vs).1.mem.heap s.brk
        = ⟨s.mem.store.next, TrimSpace p.Title, p.Description, p.Completed.getD false⟩ ∧
      (handleTasks ρ s .POST (some p) vs).1.mem.store.next
        = wrapInt64 (s.mem.store.next + 1) ∧
      (handleTasks ρ s .POST (some p) vs).1.brk = s.brk + 1 ∧
      (∀ k, k ≠ s.mem.store.next →
        GetByID (handleTasks ρ s .POST (some p) vs).1.mem k = GetByID s.mem k) ∧
      (∀ q, q ≠ s.brk →
        (handleTasks ρ s .POST (some p) vs).1.mem.heap q = s.mem.heap q)) := by
  constructor
  · intro he
    simp only [handleTasks, he, if_true]
  · intro hne
    rw [handleTasks_post_ok ρ s p vs hne]
    refine ⟨rfl, GetByID_Create _ _, ?_, rfl, rfl, ?_, ?_⟩
    · simp only [Create, Function.update_same, setCompleted_fresh]
    · intro k hk
      exact Create_lookup_ne _ _ k hk
    · intro q hq
      show Function.update _ s.brk _ q = _
      rw [Function.update_noteq hq]
      show setCompleted _ s.brk p.Completed q = _
      rw [setCompleted_of_ne _ _ _ _ hq, Function.update_noteq hq]

theorem post_validates_and_creates_witness :
    TrimSpace " \t" = "" ∧
    handleTasks RangeOrder.asStored (newServer (fun _ => ⟨0, "", "", false⟩)) .POST
        (some ⟨" \t", "soon", some true⟩) []
      = (newServer (fun _ => ⟨0, "", "", false⟩), ⟨400, .text "title is required"⟩) ∧
    TrimSpace "  Buy milk " ≠ "" ∧
    (handleTasks RangeOrder.asStored (newServer (fun _ => ⟨0, "", "", false⟩)) .POST
        (some ⟨"  Buy milk ", "soon", some true⟩) []).2
      = ⟨201, .task ⟨(newServer (fun _ => ⟨0, "", "", false⟩)).mem.store.next,
          TrimSpace "  Buy milk ", "soon", (some true).getD false⟩⟩ :=
  ⟨by decide,
    (post_validates_and_creates _ _ ⟨" \t", "soon", some true⟩ []).1 (by decide),
    by decide,
    ((post_validates_and_creates _ _ ⟨"  Buy milk ", "soon", some true⟩ []).2
      (by decide)).1⟩

/-! ## Titles of stored tasks -/

theorem TrimSpace_data (s : String) :
    (TrimSpace s).data = ((s.data.dropWhile isSpace).reverse.dropWhile isSpace).reverse := rfl

theorem TrimSpace_eq_empty_iff (s : String) :
    TrimSpace s = "" ↔ (TrimSpace s).data = [] := by
  constructor
  · intro h; rw [h]
  · intro h; exact String.ext h

/-- A blank result of `TrimSpace` means every character is white space. -/
theorem all_space_of_TrimSpace_empty (s : String) (h : TrimSpace s = "") :
    ∀ c ∈ s.data, isSpace c = true := by
  have h1 := (TrimSpace_eq_empty_iff s).mp h
  rw [TrimSpace_data, List.reverse_eq_nil_iff, List.dropWhile_eq_nil_iff] at h1
  have h2 : s.data.dropWhile isSpace = [] := by
    by_contra hne
    have hhead := List.head_dropWhile_not isSpace s.data hne
    have hmem : (s.data.dropWhile isSpace).head hne ∈ (s.data.dropWhile isSpace).reverse :=
      List.mem_reverse.mpr (List.head_mem hne)
    rw [h1 _ hmem] at hhead
    exact absurd hhead (by decide)
  exact List.dropWhile_eq_nil_iff.mp h2

/-- A trimmed title that is not empty is not blank either. -/
theorem TrimSpace_TrimSpace_ne (s : String) (h : TrimSpace s ≠ "") :
    TrimSpace (TrimSpace s) ≠ "" := by
  intro he
  have hall := all_space_of_TrimSpace_empty (TrimSpace s) he
  rw [TrimSpace_data] at hall
  have hne : (s.data.dropWhile isSpace).reverse.dropWhile isSpace ≠ [] := by
    intro hnil
    apply h
    rw [TrimSpace_eq_empty_iff, TrimSpace_data, hnil]
    rfl
  have hhead := List.head_dropWhile_not isSpace (s.data.dropWhile isSpace).reverse hne
  rw [hall _ (List.mem_reverse.mpr (List.head_mem hne))] at hhead
  exact absurd hhead (by decide)

theorem Update_title (m : Mem) (id : Int) (upd : UpdateTaskPayload) (q : Ptr)
    (hq : TrimSpace (m.heap q).Title ≠ "") :
    TrimSpace ((Update m id upd).1.heap q).Title ≠ "" := by
  simp only [Update]
  split
  · exact hq
  · next t hsome =>
    by_cases hqt : q = t
    · subst hqt
      split
      · next title _ =>
        split
        · exact hq
        · next hnb =>
          show TrimSpace (setCompleted _ q _ q).Title ≠ ""
          rw [setCompleted_apply, setDescription_apply]
          simpa [setTitle] using hnb
      · show TrimSpace (setCompleted _ q _ q).Title ≠ ""
        rw [setCompleted_apply, setDescription_apply]
        exact hq
    · split
      · split
        · exact hq
        · show TrimSpace (setCompleted _ t _ q).Title ≠ ""
          rw [setCompleted_of_ne _ _ _ _ hqt, setDescription_of_ne _ _ _ _ hqt,
            setTitle_of_ne _ _ _ _ hqt]
          exact hq
      · show TrimSpace (setCompleted _ t _ q).Title ≠ ""
        rw [setCompleted_of_ne _ _ _ _ hqt, setDescription_of_ne _ _ _ _ hqt]
        exact hq

theorem Delete_heap (m : Mem) (id : Int) : (Delete m id).1.heap = m.heap := by
  simp only [Delete]
  split <;> rfl

theorem Delete_lookup_sub (m : Mem) (id k : Int) (q : Ptr)
    (h : GetByID (Delete m id).1 k = some q) : GetByID m k = some q := by
  by_cases hk : k = id
  · subst hk
    have hmem : k ∈ (Delete m k).1.store.tasks :=
      AList.lookup_isSome.mp (by
        have : (Delete m k).1.store.tasks.lookup k = some q := h
        rw [this]; rfl)
    exact absurd rfl ((Delete_keys m k k).mp hmem).1
  · rwa [Delete_lookup_ne m id k hk] at h

theorem handleTasks_valid (ρ : RangeOrder) (s : Server) (method : Method)
    (body : Option CreateTaskPayload) (vs : List String) (hs : StoredTitlesValid s) :
    StoredTitlesValid (handleTasks ρ s method body vs).1 := by
  cases method with
  | POST =>
    cases body with
    | none => exact hs
    | some p =>
      by_cases hb : TrimSpace p.Title = ""
      · have : handleTasks ρ s .POST (some p) vs = (s, ⟨400, .text "title is required"⟩) := by
          simp only [handleTasks, hb, if_true]
        rw [this]; exact hs
      · rw [handleTasks_post_ok ρ s p vs hb]
        intro k q hkq
        by_cases hk : k = s.mem.store.next
        · subst hk
          have hget := GetByID_Create (⟨setCompleted (Function.update s.mem.heap s.brk
              ⟨0, TrimSpace p.Title, p.Description, false⟩) s.brk p.Completed,
            s.mem.store⟩ : Mem) s.brk
          have hq : q = s.brk := (Option.some.inj (hget.symm.trans hkq)).symm
          subst hq
          refine ⟨Nat.lt_succ_self _, ?_⟩
          have hheap : (Create (⟨setCompleted (Function.update s.mem.heap s.brk
              ⟨0, TrimSpace p.Title, p.Description, false⟩) s.brk p.Completed,
              s.mem.store⟩ : Mem) s.brk).1.heap s.brk
              = ⟨s.mem.store.next, TrimSpace p.Title, p.Description,
                  p.Completed.getD false⟩ := by
            simp only [Create, Function.update_same, setCompleted_fresh]
          show TrimSpace ((Create _ s.brk).1.heap s.brk).Title ≠ ""
          rw [hheap]
          exact TrimSpace_TrimSpace_ne _ hb
        · have hold : GetByID s.mem k = some q := by
            rw [← hkq]
            exact (Create_lookup_ne (⟨setCompleted (Function.update s.mem.heap s.brk
              ⟨0, TrimSpace p.Title, p.Description, false⟩) s.brk p.Completed,
              s.mem.store⟩ : Mem) s.brk k hk).symm
          have hlt := (hs k q hold).1
          have hq : q ≠ s.brk := Nat.ne_of_lt hlt
          refine ⟨Nat.lt_succ_of_lt hlt, ?_⟩
          have hheap : (Create (⟨setCompleted (Function.update s.mem.heap s.brk
              ⟨0, TrimSpace p.Title, p.Description, false⟩) s.brk p.Completed,
              s.mem.store⟩ : Mem) s.brk).1.heap q = s.mem.heap q := by
            show Function.update _ s.brk _ q = _
            rw [Function.update_noteq hq]
            show setCompleted _ s.brk p.Completed q = _
            rw [setCompleted_of_ne _ _ _ _ hq, Function.update_noteq hq]
          show TrimSpace ((Create _ s.brk).1.heap q).Title ≠ ""
          rw [hheap]
          exact (hs k q hold).2
  | GET => exact hs
  | PUT => exact hs
  | DELETE => exact hs
  | OPTIONS => exact hs

theorem handleTask_valid (s : Server) (method : Method) (id : Option Int)
    (body : Option UpdateTaskPayload) (hs : StoredTitlesValid s) :
    StoredTitlesValid (handleTask s method id body).1 := by
  cases id with
  | none => exact hs
  | some id =>
    cases method with
    | GET =>
      simp only [handleTask]
      split <;> exact hs
    | PUT =>
      cases body with
      | none => exact hs
      | some p =>
        have hupd : StoredTitlesValid ⟨(Update s.mem id p).1, s.brk⟩ := by
          intro k q hkq
          have hold : GetByID s.mem k = some q := by
            rw [← hkq, GetByID, GetByID]
            show _ = (Update s.mem id p).1.store.tasks.lookup k
            rw [Update_store]
          exact ⟨(hs k q hold).1, Update_title s.mem id p q (hs k q hold).2⟩
        simp only [handleTask]
        split
        · split <;> exact hupd
        · exact hupd
    | DELETE =>
      have hdel : StoredTitlesValid ⟨(Delete s.mem id).1, s.brk⟩ := by
        intro k q hkq
        have hold := Delete_lookup_sub s.mem id k q hkq
        refine ⟨(hs k q hold).1, ?_⟩
        show TrimSpace ((Delete s.mem id).1.heap q).Title ≠ ""
        rw [Delete_heap]
        exact (hs k q hold).2
      simp only [handleTask]
      split <;> exact hdel
    | POST => exact hs
    | OPTIONS => exact hs

theorem serveAll_valid (rs : List Request) (s : Server) (hs : StoredTitlesValid s) :
    StoredTitlesValid (serveAll s rs) := by
  induction rs generalizing s with
  | nil => exact hs
  | cons r rs ih =>
    apply ih
    cases r with
    | tasks ρ method body completed => exact handleTasks_valid ρ s method body completed hs
    | task method id body => exact handleTask_valid s method id body hs

/-- C13: in every state the server reaches from start-up by HTTP requests (POST
/tasks with its title validation, PUT and DELETE on /tasks/{id}, and the GET
requests), no task held by the store has a title that is empty or only white space. -/
theorem stored_titles_never_blank (h : Heap) (rs : List Request) (k : Int) (p : Ptr)
    (hk : GetByID (serveAll (newServer h) rs).mem k = some p) :
    TrimSpace ((serveAll (newServer h) rs).mem.heap p).Title ≠ "" :=
  (serveAll_valid rs (newServer h)
    (fun k p hkp => absurd hkp (by simp [GetByID, newServer, initMem, NewStore])) k p hk).2

theorem stored_titles_never_blank_witness :
    GetByID (serveAll (newServer (fun _ => ⟨0, "", "", false⟩))
      [Request.tasks RangeOrder.asStored .POST (some ⟨" Buy milk ", "", none⟩) [],
       Request.task .PUT (some 1) (some ⟨some " ", none, some true⟩),
       Request.task .PUT (some 1) (some ⟨some "Buy tea ", none, none⟩)]).mem 1 = some 0 ∧
    TrimSpace ((serveAll (newServer (fun _ => ⟨0, "", "", false⟩))
      [Request.tasks RangeOrder.asStored .POST (some ⟨" Buy milk ", "", none⟩) [],
       Request.task .PUT (some 1) (some ⟨some " ", none, some true⟩),
       Request.task .PUT (some 1) (some ⟨some "Buy tea ", none, none⟩)]).mem.heap 0).Title
      ≠ "" :=
  ⟨by decide, stored_titles_never_blank _ _ 1 0 (by decide)⟩

/-! ## Invariants of the store -/

theorem countCreates_append (as bs : List Op) :
    countCreates (as ++ bs) = countCreates as + countCreates bs := by
  induction as with
  | nil => simp [countCreates]
  | cons a as ih =>
    cases a with
    | Create t =>
      show countCreates (as ++ bs) + 1 = countCreates as + 1 + countCreates bs
      rw [ih]; omega
    | GetAll ρ => simpa [countCreates] using ih
    | GetByID id => simpa [countCreates] using ih
    | Update id upd => simpa [countCreates] using ih
    | Delete id => simpa [countCreates] using ih

theorem countCreates_map_Create (l : List Ptr) :
    countCreates (l.map Op.Create) = l.length := by
  induction l with
  | nil => rfl
  | cons a l ih => simp [countCreates, ih]

theorem FreshCreates_append (as bs : List Op) (m : Mem) :
    FreshCreates m (as ++ bs) ↔ FreshCreates m as ∧ FreshCreates (run m as) bs := by
  induction as generalizing m with
  | nil => simp [FreshCreates, run]
  | cons a as ih =>
    cases a with
    | Create t =>
      simp only [List.cons_append, FreshCreates, run, and_assoc]
      exact and_congr_right (fun _ => ih _)
    | GetAll ρ => exact ih _
    | GetByID id => exact ih _
    | Update id upd => exact ih _
    | Delete id => exact ih _

theorem Create_lookup_cases (m : Mem) (t : Ptr) (k : Int) (p : Ptr)
    (h : GetByID (Create m t).1 k = some p) :
    (k = m.store.next ∧ p = t) ∨ (k ≠ m.store.next ∧ GetByID m k = some p) := by
  by_cases hk : k = m.store.next
  · left
    subst hk
    exact ⟨rfl, (Option.some.inj ((GetByID_Create m t).symm.trans h)).symm⟩
  · right
    exact ⟨hk, by rwa [Create_lookup_ne m t k hk] at h⟩

/-- Creating tasks at successive new addresses gives every `Create` a fresh task. -/
theorem FreshCreates_range (n a : Nat) (m : Mem)
    (hm : ∀ k p, GetByID m k = some p → p < a) :
    FreshCreates m ((List.range' a n).map Op.Create) := by
  induction n generalizing a m with
  | zero => trivial
  | succ n ih =>
    rw [List.range'_succ, List.map_cons, FreshCreates]
    refine ⟨fun k hk => Nat.lt_irrefl a (hm k a hk), ih (a + 1) _ ?_⟩
    intro k p hkp
    rcases Create_lookup_cases m a k p hkp with ⟨_, hp⟩ | ⟨_, hold⟩
    · rw [hp]; exact Nat.lt_succ_self a
    · exact Nat.lt_succ_of_lt (hm k p hold)

theorem Update_heap_ID (m : Mem) (id : Int) (upd : UpdateTaskPayload) (p : Ptr) :
    ((Update m id upd).1.heap p).ID = (m.heap p).ID := by
  simp only [Update]
  split
  · rfl
  · split
    · split
      · rfl
      · show (setCompleted _ _ _ p).ID = _
        rw [setCompleted_ID, setDescription_ID, setTitle_ID]
    · show (setCompleted _ _ _ p).ID = _
      rw [setCompleted_ID, setDescription_ID]

/-- As long as every `Create` is given a fresh task, each key holds a task whose `ID`
is that key. -/
theorem run_ID_eq_key (ops : List Op) (m : Mem) (hf : FreshCreates m ops)
    (hm : ∀ k p, GetByID m k = some p → (m.heap p).ID = k) :
    ∀ k p, GetByID (run m ops) k = some p → ((run m ops).heap p).ID = k := by
  induction ops generalizing m with
  | nil => exact hm
  | cons op ops ih =>
    cases op with
    | Create t =>
      refine ih _ hf.2 ?_
      intro k p hkp
      rcases Create_lookup_cases m t k p hkp with ⟨hk, hp⟩ | ⟨_, hold⟩
      · subst hk hp
        simp [step, Create]
      · have hpt : p ≠ t := by
          rintro rfl
          exact hf.1 k hold
        have hheap : (Create m t).1.heap p = m.heap p := Function.update_noteq hpt _ _
        show ((Create m t).1.heap p).ID = k
        rw [hheap]
        exact hm k p hold
    | GetAll ρ => exact ih _ hf hm
    | GetByID id => exact ih _ hf hm
    | Update id upd =>
      refine ih _ hf ?_
      intro k p hkp
      have hold : GetByID m k = some p := by
        rw [← hkp, GetByID, GetByID]
        show _ = (Update m id upd).1.store.tasks.lookup k
        rw [Update_store]
      show ((Update m id upd).1.heap p).ID = k
      rw [Update_heap_ID]
      exact hm k p hold
    | Delete id =>
      refine ih _ hf ?_
      intro k p hkp
      show ((Delete m id).1.heap p).ID = k
      rw [Delete_heap]
      exact hm k p (Delete_lookup_sub m id k p hkp)

/-- C14 (amended): in every store state reached from NewStore by Create (each call
given a fresh task), Update and Delete, every key k holds a task whose ID field is k,
so no two stored tasks share an id; and as long as at most 2^63 - 2 calls of Create
have been made, every key satisfies 1 <= k < next and the counter does not decrease
from a state to the following one. -/
theorem fresh_store_invariants (h : Heap) (ops : List Op) (op : Op)
    (hf : FreshCreates (initMem h) ops) :
    (∀ k p, GetByID (run (initMem h) ops) k = some p →
      ((run (initMem h) ops).heap p).ID = k) ∧
    (∀ k₁ k₂ p₁ p₂, k₁ ≠ k₂ → GetByID (run (initMem h) ops) k₁ = some p₁ →
      GetByID (run (initMem h) ops) k₂ = some p₂ →
      ((run (initMem h) ops).heap p₁).ID ≠ ((run (initMem h) ops).heap p₂).ID) ∧
    (countCreates ops ≤ 9223372036854775806 →
      ∀ k, k ∈ (run (initMem h) ops).store.tasks →
        1 ≤ k ∧ k < (run (initMem h) ops).store.next) ∧
    (countCreates (ops ++ [op]) ≤ 9223372036854775806 →
      (run (initMem h) ops).store.next ≤ (step (run (initMem h) ops) op).1.store.next) := by
  have hid := run_ID_eq_key ops (initMem h) hf
    (fun k p hkp => absurd hkp (by simp [GetByID, initMem, NewStore]))
  refine ⟨hid, ?_, ?_, ?_⟩
  · intro k₁ k₂ p₁ p₂ hne h1 h2
    rw [hid k₁ p₁ h1, hid k₂ p₂ h2]
    exact hne
  · intro hc k hk
    rcases run_keys ops (initMem h) k hk with h0 | h0
    · exact absurd h0 (by simp [initMem, NewStore])
    · rw [createdIds_eq ops (initMem h) 1 (by rfl), List.mem_map] at h0
      obtain ⟨j, hj, hjk⟩ := h0
      rw [List.mem_range] at hj
      rw [run_next ops (initMem h) 1 (by rfl), ← hjk,
        wrapInt64_of_inRange _ (by omega) (by omega),
        wrapInt64_of_inRange _ (by omega) (by omega)]
      omega
  · intro hc
    have hstep : (step (run (initMem h) ops) op).1 = run (initMem h) (ops ++ [op]) := by
      rw [run_append]; rfl
    rw [hstep, run_next ops (initMem h) 1 (by rfl),
      run_next (ops ++ [op]) (initMem h) 1 (by rfl)]
    rw [countCreates_append] at hc ⊢
    rw [wrapInt64_of_inRange _ (by omega) (by omega),
      wrapInt64_of_inRange _ (by omega) (by omega)]
    push_cast
    omega

theorem fresh_store_invariants_witness :
    FreshCreates (initMem (fun _ => ⟨0, "Buy milk", "", false⟩))
      [Op.Create 0, Op.Delete 1, Op.Create 0, Op.Create 1] ∧
    GetByID (run (initMem (fun _ => ⟨0, "Buy milk", "", false⟩))
      [Op.Create 0, Op.Delete 1, Op.Create 0, Op.Create 1]) 2 = some 0 ∧
    ((run (initMem (fun _ => ⟨0, "Buy milk", "", false⟩))
      [Op.Create 0, Op.Delete 1, Op.Create 0, Op.Create 1]).heap 0).ID = 2 ∧
    countCreates ([Op.Create 0, Op.Delete 1, Op.Create 0, Op.Create 1] ++ [Op.Create 2])
      ≤ 9223372036854775806 ∧
    (run (initMem (fun _ => ⟨0, "Buy milk", "", false⟩))
        [Op.Create 0, Op.Delete 1, Op.Create 0, Op.Create 1]).store.next
      ≤ (step (run (initMem (fun _ => ⟨0, "Buy milk", "", false⟩))
        [Op.Create 0, Op.Delete 1, Op.Create 0, Op.Create 1]) (Op.Create 2)).1.store.next :=
  have hf : FreshCreates (initMem (fun _ => ⟨0, "Buy milk", "", false⟩))
      [Op.Create 0, Op.Delete 1, Op.Create 0, Op.Create 1] := by
    refine ⟨fun k hk => absurd hk (by simp [GetByID, initMem, NewStore]), ?_, ?_, trivial⟩
    · intro k hk
      have hmem : k ∈ (step (Create (initMem (fun _ => ⟨0, "Buy milk", "", false⟩)) 0).1
          (Op.Delete 1)).1.store.tasks :=
        AList.lookup_isSome.mp (by
          have : (step (Create (initMem (fun _ => ⟨0, "Buy milk", "", false⟩)) 0).1
            (Op.Delete 1)).1.store.tasks.lookup k = some 0 := hk
          rw [this]; rfl)
      have hlist : k ∈ ([] : List Int) := AList.mem_keys.mp hmem
      exact absurd hlist (List.not_mem_nil k)
    · intro k hk
      have hmem : k ∈ (Create (step (Create (initMem (fun _ => ⟨0, "Buy milk", "", false⟩)) 0).1
          (Op.Delete 1)).1 0).1.store.tasks :=
        AList.lookup_isSome.mp (by
          have : (Create (step (Create (initMem (fun _ => ⟨0, "Buy milk", "", false⟩)) 0).1
            (Op.Delete 1)).1 0).1.store.tasks.lookup k = some 1 := hk
          rw [this]; rfl)
      have hlist : k ∈ ([2] : List Int) := AList.mem_keys.mp hmem
      have hk2 : k = 2 := by simpa using hlist
      subst hk2
      exact absurd hk (by decide)
  ⟨hf, by decide,
    (fresh_store_invariants _ _ (Op.Create 2) hf).1 2 0 (by decide),
    by decide,
    (fresh_store_invariants _ _ (Op.Create 2) hf).2.2.2 (by decide)⟩

theorem step_Create (m : Mem) (t : Ptr) : (step m (Op.Create t)).1 = (Create m t).1 := rfl

/-- The counter after creating `n` tasks on a fresh store. -/
theorem run_range_next (h : Heap) (n : Nat) :
    (run (initMem h) ((List.range' 0 n).map Op.Create)).store.next = wrapInt64 (1 + n) := by
  rw [run_next _ (initMem h) 1 (by rfl), countCreates_map_Create, List.length_range']

/-- C14 (as stated) fails once the int64 counter wraps.  Create 2^63 - 2 tasks, each a
new object: the counter is 2^63 - 1.  One more Create of a fresh task stores it under
id 2^63 - 1 and leaves the counter at -2^63: the counter has decreased, and that key is
not below it. -/
theorem counter_wraps_counterexample :
    FreshCreates (initMem (fun _ => ⟨0, "Buy milk", "", false⟩))
      ((List.range' 0 9223372036854775806).map Op.Create ++
        [Op.Create 9223372036854775806]) ∧
    (run (initMem (fun _ => ⟨0, "Buy milk", "", false⟩))
      ((List.range' 0 9223372036854775806).map Op.Create)).store.next
      = 9223372036854775807 ∧
    (step (run (initMem (fun _ => ⟨0, "Buy milk", "", false⟩))
      ((List.range' 0 9223372036854775806).map Op.Create))
      (Op.Create 9223372036854775806)).1.store.next = -9223372036854775808 ∧
    GetByID (step (run (initMem (fun _ => ⟨0, "Buy milk", "", false⟩))
      ((List.range' 0 9223372036854775806).map Op.Create))
      (Op.Create 9223372036854775806)).1 9223372036854775807
      = some 9223372036854775806 := by
  have hnext : (run (initMem (fun _ => ⟨0, "Buy milk", "", false⟩))
      ((List.range' 0 9223372036854775806).map Op.Create)).store.next
      = 9223372036854775807 := by
    rw [run_range_next]
    rfl
  refine ⟨?_, hnext, ?_, ?_⟩
  · rw [FreshCreates_append]
    refine ⟨FreshCreates_range _ 0 _
      (fun k p hkp => absurd hkp (by simp [GetByID, initMem, NewStore])), ?_, trivial⟩
    intro k hk
    rcases run_values _ _ k _ hk with ⟨j, hj⟩ | hmem
    · exact absurd hj (by simp [GetByID, initMem, NewStore])
    · rw [List.mem_map] at hmem
      obtain ⟨a, ha, hae⟩ := hmem
      rw [List.mem_range'_1] at ha
      injection hae with hae
      rw [hae] at ha
      exact absurd ha.2 (by omega)
  · rw [step_next, hnext]
    rfl
  · rw [step_Create]
    have := GetByID_Create (run (initMem (fun _ => ⟨0, "Buy milk", "", false⟩))
      ((List.range' 0 9223372036854775806).map Op.Create)) 9223372036854775806
    rw [hnext] at this
    exact this

/-! ## The handler of /tasks/{id} -/

/-- The three outcomes of `Update`. -/
theorem Update_result_cases (m : Mem) (id : Int) (upd : UpdateTaskPayload) :
    (Update m id upd).2 = .error "not found" ∨
    (Update m id upd).2 = .error "title cannot be empty" ∨
    ∃ t, (Update m id upd).2 = .ok t := by
  simp only [Update]
  split
  · exact Or.inl rfl
  · next t _ =>
    split
    · split
      · exact Or.inr (Or.inl rfl)
      · exact Or.inr (Or.inr ⟨t, rfl⟩)
    · exact Or.inr (Or.inr ⟨t, rfl⟩)

theorem handleTask_put (s : Server) (id : Int) (p : UpdateTaskPayload) :
    ((Update s.mem id p).2 = .error "not found" →
      handleTask s .PUT (some id) (some p)
        = (⟨(Update s.mem id p).1, s.brk⟩, ⟨404, .text "task not found"⟩)) ∧
    ((Update s.mem id p).2 = .error "title cannot be empty" →
      handleTask s .PUT (some id) (some p)
        = (⟨(Update s.mem id p).1, s.brk⟩, ⟨400, .text "title cannot be empty"⟩)) ∧
    (∀ t, (Update s.mem id p).2 = .ok t →
      handleTask s .PUT (some id) (some p)
        = (⟨(Update s.mem id p).1, s.brk⟩, ⟨200, .task ((Update s.mem id p).1.heap t)⟩)) := by
  refine ⟨?_, ?_, ?_⟩
  · intro h
    simp only [handleTask, h, if_true]
  · intro h
    have hne : ¬ ("title cannot be empty" = "not found") := by decide
    simp only [handleTask, h, hne, if_false]
  · intro t h
    simp only [handleTask, h]

/-- C15: for the /tasks/{id} handler with a parsed id: GET answers 200 with the task
if the id is in the store and 404 otherwise, changing nothing; DELETE answers 204 and
removes the task if the id is in the store and 404 otherwise; PUT with a decoded
payload answers 404 exactly when Update reports not-found, 400 exactly when it reports
a blank title, and otherwise 200 with the updated task. -/
theorem task_handler_statuses (s : Server) (id : Int) (p : UpdateTaskPayload)
    (body : Option UpdateTaskPayload) :
    (∀ t, GetByID s.mem id = some t →
      handleTask s .GET (some id) body = (s, ⟨200, .task (s.mem.heap t)⟩)) ∧
    (id ∉ s.mem.store.tasks →
      handleTask s .GET (some id) body = (s, ⟨404, .text "task not found"⟩)) ∧
    (id ∈ s.mem.store.tasks →
      (handleTask s .DELETE (some id) body).2 = ⟨204, .empty⟩ ∧
      GetByID (handleTask s .DELETE (some id) body).1.mem id = none) ∧
    (id ∉ s.mem.store.tasks →
      handleTask s .DELETE (some id) body = (s, ⟨404, .text "task not found"⟩)) ∧
    ((handleTask s .PUT (some id) (some p)).2.status = 404 ↔
      (Update s.mem id p).2 = .error "not found") ∧
    ((handleTask s .PUT (some id) (some p)).2.status = 400 ↔
      (Update s.mem id p).2 = .error "title cannot be empty") ∧
    (∀ t, (Update s.mem id p).2 = .ok t →
      (handleTask s .PUT (some id) (some p)).2
        = ⟨200, .task ((Update s.mem id p).1.heap t)⟩) ∧
    ((handleTask s .PUT (some id) (some p)).2.status = 200 ↔
      ∃ t, (Update s.mem id p).2 = .ok t) := by
  obtain ⟨hnf, hbad, hok⟩ := handleTask_put s id p
  refine ⟨?_, ?_, ?_, ?_, ?_, ?_, ?_, ?_⟩
  · intro t ht
    simp only [handleTask, ht]
  · intro hid
    have hnone : GetByID s.mem id = none := AList.lookup_eq_none.mpr hid
    simp only [handleTask, hnone]
  · intro hid
    have htrue : (Delete s.mem id).2 = true := (Delete_true_iff _ _).mpr hid
    have hresp : handleTask s .DELETE (some id) body
        = (⟨(Delete s.mem id).1, s.brk⟩, ⟨204, .empty⟩) := by
      simp only [handleTask, htrue, if_true]
    rw [hresp]
    refine ⟨rfl, ?_⟩
    rw [GetByID, AList.lookup_eq_none]
    exact fun hmem => ((Delete_keys s.mem id id).mp hmem).1 rfl
  · intro hid
    have hfalse : (Delete s.mem id).2 = false := by
      cases hb : (Delete s.mem id).2 with
      | false => rfl
      | true => exact absurd ((Delete_true_iff _ _).mp hb) hid
    have hsame : (Delete s.mem id).1 = s.mem := by
      have hnone : s.mem.store.tasks.lookup id = none := AList.lookup_eq_none.mpr hid
      simp only [Delete, hnone]
    simp only [handleTask, hfalse, hsame]
    rfl
  · constructor
    · intro hst
      rcases Update_result_cases s.mem id p with h | h | ⟨t, h⟩
      · exact h
      · rw [hbad h] at hst; exact absurd hst (by simp)
      · rw [hok t h] at hst; exact absurd hst (by simp)
    · intro h; rw [hnf h]
  · constructor
    · intro hst
      rcases Update_result_cases s.mem id p with h | h | ⟨t, h⟩
      · rw [hnf h] at hst; exact absurd hst (by simp)
      · exact h
      · rw [hok t h] at hst; exact absurd hst (by simp)
    · intro h; rw [hbad h]
  · intro t h; rw [hok t h]
  · constructor
    · intro hst
      rcases Update_result_cases s.mem id p with h | h | ⟨t, h⟩
      · rw [hnf h] at hst; exact absurd hst (by simp)
      · rw [hbad h] at hst; exact absurd hst (by simp)
      · exact ⟨t, h⟩
    · rintro ⟨t, h⟩; rw [hok t h]

theorem task_handler_statuses_witness :
    GetByID (handleTasks RangeOrder.asStored (newServer (fun _ => ⟨0, "", "", false⟩)) .POST
      (some ⟨"Buy milk", "", none⟩) []).1.mem 1 = some 0 ∧
    handleTask (handleTasks RangeOrder.asStored (newServer (fun _ => ⟨0, "", "", false⟩)) .POST
        (some ⟨"Buy milk", "", none⟩) []).1 .GET (some 1) none
      = ((handleTasks RangeOrder.asStored (newServer (fun _ => ⟨0, "", "", false⟩)) .POST
          (some ⟨"Buy milk", "", none⟩) []).1,
        ⟨200, .task ((handleTasks RangeOrder.asStored (newServer (fun _ => ⟨0, "", "", false⟩))
          .POST (some ⟨"Buy milk", "", none⟩) []).1.mem.heap 0)⟩) ∧
    (handleTask (handleTasks RangeOrder.asStored (newServer (fun _ => ⟨0, "", "", false⟩)) .POST
        (some ⟨"Buy milk", "", none⟩) []).1 .PUT (some 1)
        (some ⟨some "  ", none, some true⟩)).2.status = 400 :=
  ⟨by decide,
    (task_handler_statuses _ 1 ⟨some "  ", none, some true⟩ none).1 0 (by decide),
    (task_handler_statuses _ 1 ⟨some "  ", none, some true⟩ none).2.2.2.2.2.1.mpr (by decide)⟩

/-- C16: on a fresh server, POST with the title "Buy milk" and nothing else answers
201 with the task of id 1, title "Buy milk", empty description, completed false; then
PUT on id 1 with only completed=true answers 200 with the same task, completed true;
then DELETE on id 1 answers 204; then GET on id 1 answers 404. -/
theorem scenario_buy_milk (h : Heap) (ρ : RangeOrder) :
    (handleTasks ρ (newServer h) .POST (some ⟨"Buy milk", "", none⟩) []).2
      = ⟨201, .task ⟨1, "Buy milk", "", false⟩⟩ ∧
    (handleTask (handleTasks ρ (newServer h) .POST (some ⟨"Buy milk", "", none⟩) []).1
      .PUT (some 1) (some ⟨none, none, some true⟩)).2
      = ⟨200, .task ⟨1, "Buy milk", "", true⟩⟩ ∧
    (handleTask (handleTask (handleTasks ρ (newServer h) .POST
      (some ⟨"Buy milk", "", none⟩) []).1
      .PUT (some 1) (some ⟨none, none, some true⟩)).1 .DELETE (some 1) none).2
      = ⟨204, .empty⟩ ∧
    (handleTask (handleTask (handleTask (handleTasks ρ (newServer h) .POST
      (some ⟨"Buy milk", "", none⟩) []).1
      .PUT (some 1) (some ⟨none, none, some true⟩)).1 .DELETE (some 1) none).1
      .GET (some 1) none).2
      = ⟨404, .text "task not found"⟩ := by
  refine ⟨?_, ?_, ?_, ?_⟩ <;> rfl

/-! ## Pointers handed to callers -/

theorem Update_heap_of_ne (m : Mem) (id : Int) (upd : UpdateTaskPayload) (p : Ptr)
    (hne : GetByID m id ≠ some p) : (Update m id upd).1.heap p = m.heap p := by
  simp only [GetByID] at hne
  simp only [Update]
  split
  · rfl
  · next t hsome =>
    have hp : p ≠ t := by
      rintro rfl
      exact hne hsome
    split
    · split
      · rfl
      · show setCompleted _ _ _ p = _
        rw [setCompleted_of_ne _ _ _ _ hp, setDescription_of_ne _ _ _ _ hp,
          setTitle_of_ne _ _ _ _ hp]
    · show setCompleted _ _ _ p = _
      rw [setCompleted_of_ne _ _ _ _ hp, setDescription_of_ne _ _ _ _ hp]

theorem Update_error_unchanged (m : Mem) (id : Int) (upd : UpdateTaskPayload) (e : String)
    (he : (Update m id upd).2 = .error e) : (Update m id upd).1 = m := by
  simp only [Update] at he ⊢
  split
  · rfl
  · split
    · split
      · rfl
      · next t _ _ _ hnb =>
        simp [*] at he
    · next t _ hnone =>
      simp [*] at he

/-- C17 (amended): the store hands out the task pointers it holds, not copies: Create
returns the pointer it was given and stores that pointer, GetByID and GetAll return
stored pointers.  A task so obtained is not changed by any later Delete, by a later
Update that returns an error, or by a later Update of an id that holds another task
object.  A write through a held pointer changes neither the keys, the pointers nor the
counter of the store, and no other task object, but the store then holds the written
contents for that task. -/
theorem returned_tasks_are_shared (ρ : RangeOrder) (m : Mem) (id : Int)
    (upd : UpdateTaskPayload) (t p : Ptr) (v : Task) :
    ((Create m t).2 = t ∧ GetByID (Create m t).1 m.store.next = some t) ∧
    (p ∈ GetAll ρ m → ∃ k, GetByID m k = some p) ∧
    (Delete m id).1.heap p = m.heap p ∧
    (∀ e, (Update m id upd).2 = .error e → (Update m id upd).1.heap p = m.heap p) ∧
    (GetByID m id ≠ some p → (Update m id upd).1.heap p = m.heap p) ∧
    ((writeTask m p v).store = m.store ∧
      (∀ k, GetByID (writeTask m p v) k = GetByID m k) ∧
      (writeTask m p v).heap p = v ∧
      (∀ q, q ≠ p → (writeTask m p v).heap q = m.heap q)) := by
  refine ⟨⟨rfl, GetByID_Create m t⟩, ?_, ?_, ?_, Update_heap_of_ne m id upd p, ?_⟩
  · intro hp
    rw [(GetAll_perm ρ m).mem_iff, List.mem_map] at hp
    obtain ⟨⟨k, q⟩, he, rfl⟩ := hp
    exact ⟨k, Option.mem_def.mp (AList.mem_lookup_iff.mpr he)⟩
  · rw [Delete_heap]
  · intro e he
    rw [Update_error_unchanged m id upd e he]
  · refine ⟨rfl, fun _ => rfl, ?_, ?_⟩
    · simp [writeTask]
    · intro q hq
      simp [writeTask, Function.update_noteq hq]

theorem returned_tasks_are_shared_witness :
    GetByID (run (initMem (fun _ => ⟨0, "Buy milk", "", false⟩)) [Op.Create 0, Op.Create 1]) 2
      ≠ some 0 ∧
    (Update (run (initMem (fun _ => ⟨0, "Buy milk", "", false⟩)) [Op.Create 0, Op.Create 1]) 2
        ⟨some "Buy tea", none, some true⟩).1.heap 0
      = (run (initMem (fun _ => ⟨0, "Buy milk", "", false⟩)) [Op.Create 0, Op.Create 1]).heap 0 ∧
    ((0 : Ptr) ∈ GetAll RangeOrder.backwards
        (run (initMem (fun _ => ⟨0, "Buy milk", "", false⟩)) [Op.Create 0, Op.Create 1]) ∧
      ∃ k, GetByID (run (initMem (fun _ => ⟨0, "Buy milk", "", false⟩))
        [Op.Create 0, Op.Create 1]) k = some 0) :=
  ⟨by decide,
    (returned_tasks_are_shared RangeOrder.asStored _ 2 ⟨some "Buy tea", none, some true⟩ 0 0
      default).2.2.2.2.1 (by decide),
    by decide,
    (returned_tasks_are_shared RangeOrder.backwards _ 2 ⟨some "Buy tea", none, some true⟩ 0 0
      default).2.1 (by decide)⟩

/-- C17 (as stated) fails: the store returns its own pointers.  The task obtained by
GetByID(1) has completed false; after Update(1, completed=true) that same task has
completed true.  And a caller that blanks the title of the task it got back has
changed what the store holds under id 1. -/
theorem returned_task_changes_counterexample :
    GetByID (run (initMem (fun _ => ⟨0, "Buy milk", "", false⟩)) [Op.Create 0]) 1 = some 0 ∧
    ((run (initMem (fun _ => ⟨0, "Buy milk", "", false⟩)) [Op.Create 0]).heap 0).Completed
      = false ∧
    ((Update (run (initMem (fun _ => ⟨0, "Buy milk", "", false⟩)) [Op.Create 0]) 1
      ⟨none, none, some true⟩).1.heap 0).Completed = true ∧
    GetByID (writeTask (run (initMem (fun _ => ⟨0, "Buy milk", "", false⟩)) [Op.Create 0]) 0
      ⟨1, "", "", false⟩) 1 = some 0 ∧
    (writeTask (run (initMem (fun _ => ⟨0, "Buy milk", "", false⟩)) [Op.Create 0]) 0
      ⟨1, "", "", false⟩).heap 0
      ≠ (run (initMem (fun _ => ⟨0, "Buy milk", "", false⟩)) [Op.Create 0]).heap 0 := by
  decide

/-! ## The k-th id -/

/-- C19 (amended): for every sequence of Store operations starting from NewStore with
at most 2^63 - 1 calls of Create, the k-th call of Create returns id k, whatever other
calls are interleaved; and as long as at most 2^63 - 2 calls of Create have been made,
the counter equals 1 plus the number of calls of Create made so far. -/
theorem kth_create_returns_k (h : Heap) (ops : List Op)
    (hc : countCreates ops ≤ 9223372036854775807) :
    createdIds (initMem h) ops
      = (List.range (countCreates ops)).map (fun j : Nat => (j : Int) + 1) ∧
    (countCreates ops ≤ 9223372036854775806 →
      (run (initMem h) ops).store.next = 1 + (countCreates ops : Int)) := by
  constructor
  · rw [createdIds_eq ops (initMem h) 1 (by rfl)]
    apply List.map_congr_left
    intro j hj
    rw [List.mem_range] at hj
    rw [wrapInt64_of_inRange _ (by omega) (by omega)]
    omega
  · intro hc2
    rw [run_next ops (initMem h) 1 (by rfl), wrapInt64_of_inRange _ (by omega) (by omega)]

theorem kth_create_returns_k_witness :
    countCreates [Op.Create 0, Op.Update 1 ⟨some " ", none, none⟩, Op.Delete 1, Op.Delete 5,
      Op.Create 1, Op.GetByID 2, Op.Create 0] ≤ 9223372036854775807 ∧
    createdIds (initMem (fun _ => ⟨0, "Buy milk", "", false⟩))
      [Op.Create 0, Op.Update 1 ⟨some " ", none, none⟩, Op.Delete 1, Op.Delete 5,
        Op.Create 1, Op.GetByID 2, Op.Create 0]
      = (List.range (countCreates [Op.Create 0, Op.Update 1 ⟨some " ", none, none⟩,
          Op.Delete 1, Op.Delete 5, Op.Create 1, Op.GetByID 2, Op.Create 0])).map
        (fun j : Nat => (j : Int) + 1) :=
  ⟨by decide, (kth_create_returns_k _ _ (by decide)).1⟩

/-- C19 (as stated) fails once the int64 counter wraps: after 2^63 - 1 calls of Create
the counter is -2^63, not 2^63, and the 2^63-th call of Create returns -2^63. -/
theorem kth_create_wraps_counterexample :
    (run (initMem (fun _ => ⟨0, "Buy milk", "", false⟩))
      (List.replicate 9223372036854775807 (Op.Create 0))).store.next
      = -9223372036854775808 ∧
    (createdIds (initMem (fun _ => ⟨0, "Buy milk", "", false⟩))
      (List.replicate 9223372036854775808 (Op.Create 0)))[9223372036854775807]?
      = some (-9223372036854775808) := by
  constructor
  · rw [run_next _ _ 1 (by rfl), countCreates_replicate]
    rfl
  · rw [createdIds_eq _ _ 1 (by rfl), countCreates_replicate, List.getElem?_map,
      List.getElem?_range (by omega)]
    rfl

end TaskStore
